import Mathlib

/-!
# Verification of the laeproxy per-request relay engine

A shallow embedding of `src/laeproxy.py` (the Lantern App Engine proxy,
version 0.7.1) together with `src/constants.py`, and proofs about the
embedded definitions.

Modelling conventions:
* Header collections are association lists of `(name, value)` pairs.
  Name lookup, replacement, removal and counting are case-insensitive,
  matching the webob/urlfetch header containers used by the source.
  Assignment (`headers[k] = v`) removes every entry with the same
  (case-insensitive) name and appends the new pair, as webob's
  multidict `__setitem__` does.
* Bodies and header values are `String`s; Python `len` on a body is
  modelled by `String.length`.
* `req.range.ranges` (webob 1.1.1) is taken as an input of the model:
  `none` when the `Range` header is missing or unparseable, otherwise
  the list of `(start, exclusive-end-or-none)` pairs webob produces.
  webob itself is an external library, not part of this repository.
* `urlfetch.fetch` is an oracle `OutgoingFetch → FetchOutcome` supplied
  per request; the platform's `DeadlineExceededError` firing during the
  fetch is one of the oracle's outcomes.
* `webapp.RequestHandler.error(code)` sets the status and clears the
  body, returning `None`; consequently `_extract_url`'s failure branches
  make the caller's tuple unpacking `url, scheme, host = ...` raise a
  `TypeError`, which the embedding records as an escaped exception.
-/

/-- ASCII lowercasing by structural recursion over the character list
(Python `str.lower`; `String.toLower` itself is not kernel-reducible). -/
def String.lowerAscii (s : String) : String :=
  String.mk (s.toList.map Char.toLower)

/-- Whitespace strip from both ends (Python `str.strip`). -/
def String.trimAscii (s : String) : String :=
  String.mk
    (((s.toList.dropWhile Char.isWhitespace).reverse.dropWhile
      Char.isWhitespace).reverse)

/-- `p` is a prefix of `s` (Python `str.startswith`). -/
def String.startsWithAscii (s p : String) : Bool :=
  p.toList.isPrefixOf s.toList

/-- Python `s[n:]`. -/
def String.dropChars (s : String) (n : Nat) : String :=
  String.mk (s.toList.drop n)

/-- Python `s.split(',')` on the character list. -/
def splitCommasAux : List Char → List (List Char)
  | [] => [[]]
  | c :: rest =>
    if c = ',' then [] :: splitCommasAux rest
    else
      match splitCommasAux rest with
      | [] => [[c]]
      | h :: t => (c :: h) :: t

/-- Python `s.split(',')`. -/
def String.splitCommas (s : String) : List String :=
  (splitCommasAux s.toList).map String.mk

namespace Laeproxy

/-! ## String utilities (Python semantics) -/

/-- One-shot split at the first occurrence of `c`, i.e. Python
`s.split(c, 1)` when it yields two parts; `none` when `c` does not occur
(in which case Python tuple unpacking raises `ValueError`). -/
def splitOnceAux (c : Char) : List Char → Option (List Char × List Char)
  | [] => none
  | x :: xs =>
    if x = c then some ([], xs)
    else
      match splitOnceAux c xs with
      | none => none
      | some (a, b) => some (x :: a, b)

/-- Python `s.split(c, 1)` restricted to the two-part case. -/
def splitOnce (s : String) (c : Char) : Option (String × String) :=
  match splitOnceAux c s.toList with
  | none => none
  | some (a, b) => some (String.mk a, String.mk b)

/-- Whether `c` is a hexadecimal digit (`string.hexdigits`). -/
def isHexDigitChar (c : Char) : Bool :=
  c.isDigit || ('a' ≤ c && c ≤ 'f') || ('A' ≤ c && c ≤ 'F')

/-- Numeric value of a hexadecimal digit character. -/
def hexVal (c : Char) : Nat :=
  if c.isDigit then c.toNat - 48
  else if 'a' ≤ c ∧ c ≤ 'f' then c.toNat - 87
  else c.toNat - 55

/-- Python 2 `urllib.unquote`: decode `%XX` escapes, leaving ill-formed
escapes untouched. -/
def unquoteAux : List Char → List Char
  | [] => []
  | '%' :: a :: b :: rest =>
    if isHexDigitChar a ∧ isHexDigitChar b then
      Char.ofNat (16 * hexVal a + hexVal b) :: unquoteAux rest
    else
      '%' :: unquoteAux (a :: b :: rest)
  | c :: rest => c :: unquoteAux rest

/-- Python 2 `urllib.unquote` on strings. -/
def unquote (s : String) : String :=
  String.mk (unquoteAux s.toList)

/-- Python `s.lstrip('/')`: drop every leading slash. -/
def lstripSlash (s : String) : String :=
  String.mk (s.toList.dropWhile (fun c => c = '/'))

/-- Digits-only decimal reading; `none` on the empty list or any
non-digit character. -/
def digitsToNat (l : List Char) : Option Nat :=
  match l with
  | [] => none
  | _ =>
    l.foldl
      (fun acc c =>
        match acc with
        | none => none
        | some n => if c.isDigit then some (n * 10 + (c.toNat - 48)) else none)
      (some 0)

/-- Python `int(s)` on strings: optional surrounding whitespace, an
optional sign, then decimal digits; `none` models `ValueError`. -/
def pyInt (s : String) : Option Int :=
  match (s.trimAscii).toList with
  | '-' :: ds => (digitsToNat ds).map (fun n => -(n : Int))
  | '+' :: ds => (digitsToNat ds).map (fun n => (n : Int))
  | ds => (digitsToNat ds).map (fun n => (n : Int))

/-! ## Header collections -/

/-- A header collection: insertion-ordered `(name, value)` pairs with
case-insensitive name matching. -/
structure Headers where
  entries : List (String × String)
  deriving DecidableEq

/-- Case-insensitive lookup of the first entry named `k`. -/
def Headers.get (h : Headers) (k : String) : Option String :=
  (h.entries.find? (fun e => e.1.lowerAscii == k.lowerAscii)).map Prod.snd

/-- `headers[k] = v`: drop every entry with the same case-insensitive
name and append `(k, v)`. -/
def Headers.set (h : Headers) (k v : String) : Headers :=
  ⟨h.entries.filter (fun e => e.1.lowerAscii != k.lowerAscii) ++ [(k, v)]⟩

/-- Number of entries whose lowercased name equals `n` (`n` is expected
in lowercase). -/
def Headers.count (h : Headers) (n : String) : Nat :=
  h.entries.countP (fun e => e.1.lowerAscii == n)

/-! ## Constants (`src/constants.py`) -/

def URLFETCH_REQ_MAXBYTES : Nat := 1024 * 1024 * 5
def URLFETCH_RES_MAXBYTES : Nat := 1024 * 1024 * 32
def URLFETCH_REQ_MAXSECS : Nat := 60

def RANGE_REQ_SIZE : Int := 2000000

def H_LAEPROXY_VER : String := "X-laeproxy-version"
def H_UPSTREAM_SERVER : String := "X-laeproxy-upstream-server"
def H_UPSTREAM_STATUS_CODE : String := "X-laeproxy-upstream-status-code"
def H_UPSTREAM_CONTENT_RANGE : String := "X-laeproxy-upstream-content-range"
def H_TRUNCATED : String := "X-laeproxy-truncated"
def H_LAEPROXY_RESULT : String := "X-laeproxy-result"

def IGNORED_RECURSIVE : String := "Ignored recursive request"
def REQ_TOO_LARGE : String := "Request size exceeds urlfetch limit"
def MISSED_DEADLINE_URLFETCH : String := "Missed urlfetch deadline"
def MISSED_DEADLINE_GAE : String := " Missed GAE deadline"
def EXCEEDED_URLFETCH_QUOTA : String := "Exceeded urlfetch quota"

/-- `RETRIEVED_FROM_NET % now()` with the formatted UTC timestamp. -/
def RETRIEVED_FROM_NET (ts : String) : String :=
  "Retrieved from network " ++ ts

/-- `UNEXPECTED_ERROR % e` with the exception's repr. -/
def UNEXPECTED_ERROR (e : String) : String :=
  "Unexpected error: " ++ e

def HOPBYHOP : List String :=
  [ "connection", "keep-alive", "proxy-authenticate", "proxy-authorization",
    "te", "trailer", "transfer-encoding", "upgrade" ]

/-- `__version__` of `laeproxy.py`. -/
def laeproxyVersion : String := "0.7.1"

/-! ## Data model -/

inductive Method
  | delete | get | head | put | post
  deriving DecidableEq

/-- `method in RANGE_METHODS` (`frozenset(('get',))`). -/
def Method.isRange : Method → Bool
  | .get => true
  | _ => false

/-- `method in PAYLOAD_METHODS` (`frozenset(('put', 'post'))`). -/
def Method.isPayload : Method → Bool
  | .put => true
  | .post => true
  | _ => false

/-- The per-request working set the handler reads: path-with-query,
the proxy's own authority (`req.host`), the incoming headers, the body,
and webob's parsed view of the `Range` header (`req.range.ranges`;
`none` when the header is missing or unparseable). -/
structure Request where
  path_qs : String
  host : String
  headers : Headers
  body : String
  rangeParsed : Option (List (Int × Option Int))
  deriving DecidableEq

/-- The argument record of the single `urlfetch.fetch` call. -/
structure OutgoingFetch where
  url : String
  payload : Option String
  method : Method
  headers : Headers
  allow_truncated : Bool
  follow_redirects : Bool
  deadline : Nat
  validate_certificate : Bool
  deriving DecidableEq

/-- A completed `urlfetch.fetch` result. -/
structure FetchResult where
  status_code : Nat
  headers : Headers
  content : String
  content_was_truncated : Bool
  deriving DecidableEq

/-- The possible outcomes of the `fetch` call: a result, one of the
classified exceptions, or the platform's overall request deadline
(`DeadlineExceededError`) firing during the fetch. -/
inductive FetchOutcome
  | success (r : FetchResult)
  | invalidURLError
  | downloadError
  | overQuotaError
  | otherError (reprStr : String)
  | gaeDeadline
  deriving DecidableEq

/-- The outgoing response: status, headers, body. -/
structure Response where
  status : Nat
  headers : Headers
  body : String
  deriving DecidableEq

/-- The fresh `webapp.Response` the handler starts from (annotation
headers only are tracked). -/
def Response.initial : Response :=
  { status := 200, headers := ⟨[]⟩, body := "" }

/-- `webapp.RequestHandler.error(code)`: set the status and clear the
body (headers are kept). -/
def Response.error (code : Nat) (r : Response) : Response :=
  { r with status := code, body := "" }

/-- Set one response header. -/
def Response.setHeader (r : Response) (k v : String) : Response :=
  { r with headers := r.headers.set k v }

/-- Python exceptions that can escape the handler body. -/
inductive PyExc
  | typeError
  | deadlineExceeded
  deriving DecidableEq

/-- How one handler invocation ends: a returned response, or an
exception escaping with the response state accumulated so far. -/
inductive HandlerOutcome
  | normal (r : Response)
  | exc (e : PyExc) (r : Response)
  deriving DecidableEq

/-! ## URL Decoder (`LaeproxyHandler._extract_url`, laeproxy.py:84-109) -/

/-- `LaeproxyHandler._extract_url`: reconstruct the target URL from the
proxy-encoded path.  The error value is the result string the method
stores in `X-laeproxy-result` before `self.error(404)`. -/
def extract_url (path_qs : String) (reqhost : String) :
    Except String (String × String × String) :=
  let path := lstripSlash path_qs
  match splitOnce path '/' with
  | none => .error "Invalid url"
  | some (scheme, rest1) =>
    let parts := splitOnce rest1 '/'
    let rest := match parts with
      | some (_, b) => b
      | none => ""
    let part0 := match parts with
      | some (a, _) => a
      | none => rest1
    let host := unquote part0
    if host = "" then .error "Missing host"
    else if reqhost.lowerAscii = host.lowerAscii then .error IGNORED_RECURSIVE
    else .ok (scheme ++ "://" ++ host ++ "/" ++ rest, scheme, host)

/-! ## Header Sanitizer (laeproxy.py:73-80, 140-150, 217-220) -/

/-- The comma-separated, lowercased, stripped, nonempty tokens of a
message's `Connection` header (laeproxy.py:141-142 and 218-219). -/
def connNames (h : Headers) : List String :=
  ((((h.get "connection").getD "").lowerAscii.splitCommas).map String.trimAscii).filter
    (fun s => s ≠ "")

/-- The strip set for the forwarded request: names listed in the
incoming `Connection` header, the RFC 2616 hop-by-hop names, and
`host` (laeproxy.py:141-144). -/
def reqIgnoreHeaders (req : Request) : List String :=
  connNames req.headers ++ HOPBYHOP ++ ["host"]

/-- Popping every header whose lowercase name is in `ignore` from a
header collection (laeproxy.py:145-148). -/
def stripHeaders (h : Headers) (ignore : List String) : Headers :=
  ⟨h.entries.filter (fun e => decide (e.1.lowerAscii ∉ ignore))⟩

/-- `copy_headers(from_, to, ignore)` (laeproxy.py:73-80): copy every
entry whose lowercase name is not ignored into `to`, in order.  The
list of ignored pairs is only logged and is not modelled. -/
def copy_headers (from_ : Headers) (dst : Headers) (ignore : List String) : Headers :=
  from_.entries.foldl
    (fun acc e => if e.1.lowerAscii ∈ ignore then acc else acc.set e.1 e.2) dst

/-! ## Range Policy (laeproxy.py:152-177) -/

inductive RangeDecision
  | reject (status : Nat) (msg : String)
  | accept (rdata : Option (Int × Int))
  deriving DecidableEq

/-- The GET range admission (laeproxy.py:152-177), deciding on webob's
parsed view of the `Range` header.  `accept (some (s, e))` carries the
inclusive `(range_start, range_end)` pair after the `range_end -= 1`
conversion; for non-range methods the block is skipped. -/
def rangeAdmission (rangemethod : Bool) (rp : Option (List (Int × Option Int))) :
    RangeDecision :=
  if !rangemethod then .accept none
  else
    match rp with
    | none => .reject 400 "Missing or invalid range header"
    | some ranges =>
      match ranges with
      | [(range_start, some e)] =>
        if ¬(0 ≤ range_start ∧ range_start ≤ e - 1) then
          .reject 416 "Range must satisfy 0 <= range_start <= range_end"
        else if e - 1 - range_start + 1 > RANGE_REQ_SIZE then
          .reject 400 ("Range specifies " ++ toString (e - 1 - range_start + 1) ++
            " bytes, limit is " ++ toString RANGE_REQ_SIZE)
        else .accept (some (range_start, e - 1))
      | [(_, none)] => .reject 400 "Range must be of the form bytes=x-y"
      | _ => .reject 400 "Multiple ranges unsupported"

/-! ## Response Shaper (laeproxy.py:208-278) -/

/-- The strict `Content-Range` parse of the 206 branch
(laeproxy.py:256-260): `bytes S-E/T` with Python `int` conversions;
`none` models the caught exception. -/
def parseContentRange (crange : String) : Option (Int × Int × Int) :=
  if crange.startsWithAscii "bytes " then
    match splitOnce (crange.dropChars 6) '/' with
    | none => none
    | some (sent, total) =>
      match splitOnce sent '-' with
      | none => none
      | some (a, b) =>
        match pyInt a, pyInt b, pyInt total with
        | some s, some e, some t => some (s, e, t)
        | _, _, _ => none
  else none

/-- The fulfillment check of laeproxy.py:270: the upstream 206 satisfies
the client's request iff `start == range_start and end <= range_end`.
Its outcome is only logged. -/
def fulfillmentCheck (range_start range_end start endv : Int) : Bool :=
  start == range_start && decide (endv ≤ range_end)

/-- `absloc` of laeproxy.py:225-226: the absolutized `Location` value. -/
def absLocation (scheme host loc : String) : String :=
  scheme ++ "://" ++ host ++ (if loc.startsWithAscii "/" then loc else "/" ++ loc)

/-- The `Location` rewrite given the looked-up value `loc`. -/
def fixLocationWith (scheme host loc : String) (fheaders : Headers) : Headers :=
  if loc ≠ "" ∧ ¬(loc.startsWithAscii "http") then
    fheaders.set "location" (absLocation scheme host loc)
  else fheaders

/-- Correction of an invalid relative `Location` header
(laeproxy.py:222-228): a nonempty value not starting with `http` is
replaced by `scheme://host` + the slash-prefixed value. -/
def fixLocation (scheme host : String) (fheaders : Headers) : Headers :=
  fixLocationWith scheme host ((fheaders.get "location").getD "") fheaders

/-- `LaeproxyHandler._send_response` (laeproxy.py:111-116): copy the
fetched headers minus the strip set into the response headers, then
write the content. -/
def send_response (fheaders : Headers) (res : Response) (ignore : List String)
    (content : String) : Response :=
  { res with
    headers := copy_headers fheaders res.headers ignore,
    body := res.body ++ content }

/-- Lines 208-214 of laeproxy.py: copy the upstream status onto the
response and record the upstream status and server annotations. -/
def annotatedBase (res0 : Response) (fetched : FetchResult) : Response :=
  (({ res0 with status := fetched.status_code }).setHeader
      H_UPSTREAM_STATUS_CODE (toString fetched.status_code)).setHeader
    H_UPSTREAM_SERVER ((fetched.headers.get "server").getD "")

/-- The response-side strip set (laeproxy.py:217-220). -/
def resIgnoreHeaders (fetched : FetchResult) : List String :=
  connNames fetched.headers ++ HOPBYHOP

/-- The fetched headers after the `Location` correction
(`fheaders` at the point `_send_response` is called). -/
def fheadersOf (scheme host : String) (fetched : FetchResult) : Headers :=
  fixLocation scheme host fetched.headers

/-- `crange = fheaders.get('content-range', '')` of laeproxy.py:253. -/
def crangeOf (scheme host : String) (fetched : FetchResult) : String :=
  ((fheadersOf scheme host fetched).get "content-range").getD ""

/-- Lines 208-278 of laeproxy.py: everything after a completed fetch.
Copies the upstream status, records the upstream server and status
annotations, strips hop-by-hop response headers, corrects a relative
`Location`, then dispatches on truncation / non-range method /
200 / 206 / other status.  The 206 `Content-Range` parse and the
fulfillment check influence logging only, never the response (both
arms of the parse dispatch return the response as-is). -/
def afterFetchResponse (rangemethod : Bool) (scheme host : String)
    (res0 : Response) (fetched : FetchResult) : Response :=
  if fetched.content_was_truncated then
    send_response (fheadersOf scheme host fetched)
      ((annotatedBase res0 fetched).setHeader H_TRUNCATED "true")
      (resIgnoreHeaders fetched) fetched.content
  else if !rangemethod then
    send_response (fheadersOf scheme host fetched) (annotatedBase res0 fetched)
      (resIgnoreHeaders fetched) fetched.content
  else if fetched.status_code = 200 then
    send_response (fheadersOf scheme host fetched) (annotatedBase res0 fetched)
      (resIgnoreHeaders fetched) fetched.content
  else if fetched.status_code = 206 then
    match parseContentRange (crangeOf scheme host fetched) with
    | none =>
      send_response (fheadersOf scheme host fetched)
        ((annotatedBase res0 fetched).setHeader H_UPSTREAM_CONTENT_RANGE
          (crangeOf scheme host fetched))
        (resIgnoreHeaders fetched) fetched.content
    | some _ =>
      send_response (fheadersOf scheme host fetched)
        ((annotatedBase res0 fetched).setHeader H_UPSTREAM_CONTENT_RANGE
          (crangeOf scheme host fetched))
        (resIgnoreHeaders fetched) fetched.content
  else
    send_response (fheadersOf scheme host fetched) (annotatedBase res0 fetched)
      (resIgnoreHeaders fetched) fetched.content

/-! ## Fetch Invoker and handler body (laeproxy.py:118-281) -/

/-- `payload = req.body if payloadmethod else None` (laeproxy.py:134). -/
def payloadOf (m : Method) (req : Request) : Option String :=
  if m.isPayload then some req.body else none

/-- `payloadlen` (laeproxy.py:135). -/
def payloadLen (m : Method) (req : Request) : Nat :=
  match payloadOf m req with
  | some p => p.length
  | none => 0

/-- The argument record of the `fetch` call (laeproxy.py:180-188):
sanitized headers, `allow_truncated=True`, `follow_redirects=False`,
the urlfetch deadline, and certificate validation. -/
def mkOutgoingFetch (m : Method) (req : Request) (url : String) : OutgoingFetch :=
  { url := url
    payload := payloadOf m req
    method := m
    headers := stripHeaders req.headers (reqIgnoreHeaders req)
    allow_truncated := true
    follow_redirects := false
    deadline := URLFETCH_REQ_MAXSECS
    validate_certificate := true }

/-- The `try: fetched = fetch(...)` block and everything after it
(laeproxy.py:179-278): dispatch on the oracle's outcome, classifying
the exceptions, stamping `RETRIEVED_FROM_NET` on success, and treating
a `DeadlineExceededError` during the fetch as an escaping exception. -/
def fetchStage (m : Method) (ts : String) (oracle : OutgoingFetch → FetchOutcome)
    (req : Request) (scheme host url : String) : HandlerOutcome :=
  let res := Response.initial
  match oracle (mkOutgoingFetch m req url) with
  | .gaeDeadline => .exc .deadlineExceeded res
  | .invalidURLError =>
    .normal (Response.error 404 (res.setHeader H_LAEPROXY_RESULT "Invalid url"))
  | .downloadError =>
    .normal (Response.error 504 (res.setHeader H_LAEPROXY_RESULT MISSED_DEADLINE_URLFETCH))
  | .overQuotaError =>
    .normal (Response.error 503 (res.setHeader H_LAEPROXY_RESULT EXCEEDED_URLFETCH_QUOTA))
  | .otherError e =>
    .normal (Response.error 500 (res.setHeader H_LAEPROXY_RESULT (UNEXPECTED_ERROR e)))
  | .success fetched =>
    .normal (afterFetchResponse m.isRange scheme host
      (res.setHeader H_LAEPROXY_RESULT (RETRIEVED_FROM_NET ts)) fetched)

/-- The body of one generated method handler (laeproxy.py:123-278),
also reporting the `fetch` invocation (if any).  On a `_extract_url`
failure the method has already stored the result string and run
`self.error(404)`, but it returns `None`, so the caller's tuple
unpacking `url, scheme, host = self._extract_url(req)` raises a
`TypeError` that escapes the handler. -/
def handler (m : Method) (ts : String) (oracle : OutgoingFetch → FetchOutcome)
    (req : Request) : HandlerOutcome × Option OutgoingFetch :=
  let res := Response.initial
  match extract_url req.path_qs req.host with
  | .error msg =>
    (.exc .typeError (Response.error 404 (res.setHeader H_LAEPROXY_RESULT msg)), none)
  | .ok (url, _scheme, _host) =>
    if payloadLen m req ≥ URLFETCH_REQ_MAXBYTES then
      (.normal (Response.error 400 (res.setHeader H_LAEPROXY_RESULT REQ_TOO_LARGE)), none)
    else
      match rangeAdmission m.isRange req.rangeParsed with
      | .reject st msg =>
        (.normal (Response.error st (res.setHeader H_LAEPROXY_RESULT msg)), none)
      | .accept _ =>
        (fetchStage m ts oracle req _scheme _host url, some (mkOutgoingFetch m req url))

/-! ## Deadline Guard (`catch_deadline_exceeded`, laeproxy.py:283-294) -/

/-- The `except DeadlineExceededError` recovery plus the `finally`
stamp (laeproxy.py:288-292): append `MISSED_DEADLINE_GAE` to whatever
result string is currently set, `self.error(504)`, then set the
version header. -/
def deadlineRecovery (r : Response) : Response :=
  let r := r.setHeader H_LAEPROXY_RESULT
    (((r.headers.get H_LAEPROXY_RESULT).getD "") ++ MISSED_DEADLINE_GAE)
  let r := Response.error 504 r
  r.setHeader H_LAEPROXY_VER laeproxyVersion

/-- `catch_deadline_exceeded` (laeproxy.py:283-294): recover from the
platform deadline; in every case (`finally`) stamp the version header;
any other exception keeps escaping after the `finally` block runs. -/
def catch_deadline_exceeded (o : HandlerOutcome) : HandlerOutcome :=
  match o with
  | .normal r => .normal (r.setHeader H_LAEPROXY_VER laeproxyVersion)
  | .exc .deadlineExceeded r => .normal (deadlineRecovery r)
  | .exc k r => .exc k (r.setHeader H_LAEPROXY_VER laeproxyVersion)

/-- One full request through the wrapped handler: the guarded outcome
and the `fetch` invocation (if any).  An `exc` outcome means the
exception escaped the core; the enclosing HTTP server (out of scope)
then produces its own 500 response. -/
def processRequest (m : Method) (ts : String)
    (oracle : OutgoingFetch → FetchOutcome) (req : Request) :
    HandlerOutcome × Option OutgoingFetch :=
  let (o, fc) := handler m ts oracle req
  (catch_deadline_exceeded o, fc)

end Laeproxy

namespace Laeproxy
/-! ## Helper lemmas: header collections -/

theorem find?_filter_of_imp {α : Type} (p q : α → Bool)
    (h : ∀ e, p e = true → q e = true) :
    ∀ l : List α, (l.filter q).find? p = l.find? p := by
  intro l
  induction l with
  | nil => rfl
  | cons x xs ih =>
    by_cases hq : q x = true
    · by_cases hp : p x = true <;>
        simp [List.filter_cons, hq, List.find?_cons, hp, ih]
    · have hp : p x = false := by
        cases hpx : p x
        · rfl
        · exact absurd (h x hpx) hq
      simp [List.filter_cons, hq, List.find?_cons, hp, ih]

theorem Headers.get_set (h : Headers) (k v n : String) :
    (h.set k v).get n = if k.lowerAscii = n.lowerAscii then some v else h.get n := by
  unfold Headers.get Headers.set
  by_cases hk : k.lowerAscii = n.lowerAscii
  · rw [if_pos hk]
    have hnone : (h.entries.filter (fun e => e.1.lowerAscii != k.lowerAscii)).find?
        (fun e => e.1.lowerAscii == n.lowerAscii) = none := by
      rw [List.find?_eq_none]
      intro e he hmatch
      rw [List.mem_filter] at he
      have h1 : e.1.lowerAscii = n.lowerAscii := by simpa using hmatch
      have h2 : e.1.lowerAscii ≠ k.lowerAscii := by simpa using he.2
      exact h2 (h1.trans hk.symm)
    simp [List.find?_append, hnone, hk]
  · rw [if_neg hk]
    have hlast : (List.find? (fun e => e.1.lowerAscii == n.lowerAscii) [(k, v)]) = none := by
      have hbeq : ((k, v).1.lowerAscii == n.lowerAscii) = false := by
        rw [beq_eq_false_iff_ne]
        exact hk
      simp [List.find?, hbeq]
    rw [List.find?_append, hlast]
    rw [find?_filter_of_imp]
    · simp
    · intro e hpe
      have h1 : e.1.lowerAscii = n.lowerAscii := by simpa using hpe
      simp only [bne_iff_ne, ne_eq, decide_eq_true_eq]
      intro hek
      exact hk (hek.symm.trans h1)

theorem Headers.count_set (h : Headers) (k v n : String) :
    (h.set k v).count n = if k.lowerAscii = n then 1 else h.count n := by
  unfold Headers.count Headers.set
  rw [List.countP_append]
  by_cases hk : k.lowerAscii = n
  · rw [if_pos hk]
    have h0 : (h.entries.filter (fun e => e.1.lowerAscii != k.lowerAscii)).countP
        (fun e => e.1.lowerAscii == n) = 0 := by
      rw [List.countP_eq_zero]
      intro e he hmatch
      rw [List.mem_filter] at he
      have h1 : e.1.lowerAscii = n := by simpa using hmatch
      have h2 : e.1.lowerAscii ≠ k.lowerAscii := by simpa using he.2
      exact h2 (h1.trans hk.symm)
    simp [h0, List.countP_cons, hk]
  · rw [if_neg hk]
    have h1 : (List.countP (fun e => e.1.lowerAscii == n) [(k, v)]) = 0 := by
      simp [List.countP_cons, hk]
    rw [h1, Nat.add_zero, List.countP_filter, List.countP_congr]
    intro e _
    by_cases he : e.1.lowerAscii = n
    · have h3 : e.1.lowerAscii ≠ k.lowerAscii := fun hc => hk (hc.symm.trans he)
      have h4 : ¬(n = k.lowerAscii) := fun hc => hk hc.symm
      simp [he, h3, h4]
    · simp [he]

theorem Headers.mem_set {h : Headers} {k v a b : String} :
    (a, b) ∈ (h.set k v).entries ↔
      ((a, b) ∈ h.entries ∧ a.lowerAscii ≠ k.lowerAscii) ∨ (a = k ∧ b = v) := by
  unfold Headers.set
  simp [List.mem_filter, and_comm]

/-! ## Helper lemmas: `copy_headers` folds -/

theorem copy_headers_cons (e : String × String) (tl : List (String × String))
    (dst : Headers) (ig : List String) :
    copy_headers ⟨e :: tl⟩ dst ig =
      copy_headers ⟨tl⟩ (if e.1.lowerAscii ∈ ig then dst else dst.set e.1 e.2) ig := rfl

theorem copy_get_of_from_clean (ig : List String) (n : String) :
    ∀ (l : List (String × String)) (dst : Headers),
      (∀ e ∈ l, e.1.lowerAscii ≠ n.lowerAscii) →
      (copy_headers ⟨l⟩ dst ig).get n = dst.get n := by
  intro l
  induction l with
  | nil => intro dst _; rfl
  | cons e tl ih =>
    intro dst hcl
    rw [copy_headers_cons]
    by_cases hig : e.1.lowerAscii ∈ ig
    · rw [if_pos hig]
      exact ih dst (fun x hx => hcl x (List.mem_cons_of_mem _ hx))
    · rw [if_neg hig]
      have := ih (dst.set e.1 e.2) (fun x hx => hcl x (List.mem_cons_of_mem _ hx))
      rw [this, Headers.get_set, if_neg (hcl e (List.mem_cons_self _ _))]

theorem copy_count_one (ig : List String) (n : String) :
    ∀ (l : List (String × String)) (dst : Headers),
      dst.count n = 1 → (copy_headers ⟨l⟩ dst ig).count n = 1 := by
  intro l
  induction l with
  | nil => intro dst h; exact h
  | cons e tl ih =>
    intro dst hdst
    rw [copy_headers_cons]
    by_cases hig : e.1.lowerAscii ∈ ig
    · rw [if_pos hig]; exact ih dst hdst
    · rw [if_neg hig]
      apply ih
      rw [Headers.count_set]
      by_cases he : e.1.lowerAscii = n
      · rw [if_pos he]
      · rw [if_neg he]; exact hdst

theorem copy_forall (P : String → String → Prop) (ig : List String) :
    ∀ (l : List (String × String)) (dst : Headers),
      (∀ a b, (a, b) ∈ dst.entries → P a b) →
      (∀ a b, (a, b) ∈ l → a.lowerAscii ∉ ig → P a b) →
      ∀ a b, (a, b) ∈ (copy_headers ⟨l⟩ dst ig).entries → P a b := by
  intro l
  induction l with
  | nil => intro dst hdst _; exact hdst
  | cons e tl ih =>
    intro dst hdst hfrom
    by_cases hig : e.1.lowerAscii ∈ ig
    · rw [copy_headers_cons, if_pos hig]
      exact ih dst hdst (fun a b hab hig2 => hfrom a b (List.mem_cons_of_mem _ hab) hig2)
    · rw [copy_headers_cons, if_neg hig]
      apply ih
      · intro a b hab
        rw [Headers.mem_set] at hab
        rcases hab with ⟨hmem, _⟩ | ⟨ha, hb⟩
        · exact hdst a b hmem
        · subst ha; subst hb
          exact hfrom e.1 e.2 (by simp) hig
      · intro a b hab hig2
        exact hfrom a b (List.mem_cons_of_mem _ hab) hig2

/-! ## Helper lemmas: sanitizer membership -/

theorem mem_stripHeaders {h : Headers} {ig : List String} {a b : String} :
    (a, b) ∈ (stripHeaders h ig).entries → (a, b) ∈ h.entries ∧ a.lowerAscii ∉ ig := by
  intro hmem
  unfold stripHeaders at hmem
  rw [List.mem_filter] at hmem
  exact ⟨hmem.1, by simpa using hmem.2⟩

theorem mem_fixLocation {scheme host : String} {f : Headers} {a b : String} :
    (a, b) ∈ (fixLocation scheme host f).entries →
      (a, b) ∈ f.entries ∨ a = "location" := by
  intro hmem
  unfold fixLocation fixLocationWith at hmem
  split at hmem
  · rw [Headers.mem_set] at hmem
    rcases hmem with ⟨hm, _⟩ | ⟨ha, _⟩
    · exact Or.inl hm
    · exact Or.inr ha
  · exact Or.inl hmem

/-- The response produced by every pre-fetch rejection: result string,
`self.error(status)`, version stamp from the guard's `finally`. -/
def rejectedResponse (st : Nat) (msg : String) : Response :=
  (Response.error st (Response.initial.setHeader H_LAEPROXY_RESULT msg)).setHeader
    H_LAEPROXY_VER laeproxyVersion

/-! ## Pipeline lemmas -/

theorem catch_normal (r : Response) :
    catch_deadline_exceeded (.normal r) =
      .normal (r.setHeader H_LAEPROXY_VER laeproxyVersion) := rfl

theorem processRequest_extract_error (m : Method) (ts : String)
    (oracle : OutgoingFetch → FetchOutcome) (req : Request) (msg : String)
    (hx : extract_url req.path_qs req.host = .error msg) :
    processRequest m ts oracle req =
      (.exc .typeError
        ((Response.error 404 (Response.initial.setHeader H_LAEPROXY_RESULT msg)).setHeader
          H_LAEPROXY_VER laeproxyVersion),
       none) := by
  simp only [processRequest, handler, hx]
  rfl

theorem processRequest_reject (m : Method) (ts : String)
    (oracle : OutgoingFetch → FetchOutcome) (req : Request)
    (url scheme host : String) (st : Nat) (msg : String)
    (hx : extract_url req.path_qs req.host = .ok (url, scheme, host))
    (hlen : payloadLen m req < URLFETCH_REQ_MAXBYTES)
    (hr : rangeAdmission m.isRange req.rangeParsed = .reject st msg) :
    processRequest m ts oracle req = (.normal (rejectedResponse st msg), none) := by
  simp only [processRequest, handler, hx, hr, if_neg (Nat.not_le.mpr hlen)]
  rfl

theorem processRequest_fetch (m : Method) (ts : String)
    (oracle : OutgoingFetch → FetchOutcome) (req : Request)
    (url scheme host : String) (rd : Option (Int × Int))
    (hx : extract_url req.path_qs req.host = .ok (url, scheme, host))
    (hlen : payloadLen m req < URLFETCH_REQ_MAXBYTES)
    (hr : rangeAdmission m.isRange req.rangeParsed = .accept rd) :
    processRequest m ts oracle req =
      (catch_deadline_exceeded (fetchStage m ts oracle req scheme host url),
       some (mkOutgoingFetch m req url)) := by
  simp only [processRequest, handler, hx, hr, if_neg (Nat.not_le.mpr hlen)]

theorem fetchStage_success (m : Method) (ts : String)
    (oracle : OutgoingFetch → FetchOutcome) (req : Request)
    (scheme host url : String) (fetched : FetchResult)
    (hs : oracle (mkOutgoingFetch m req url) = .success fetched) :
    fetchStage m ts oracle req scheme host url =
      .normal (afterFetchResponse m.isRange scheme host
        (Response.initial.setHeader H_LAEPROXY_RESULT (RETRIEVED_FROM_NET ts))
        fetched) := by
  simp only [fetchStage, hs]

theorem fetchStage_gaeDeadline (m : Method) (ts : String)
    (oracle : OutgoingFetch → FetchOutcome) (req : Request)
    (scheme host url : String)
    (hs : oracle (mkOutgoingFetch m req url) = .gaeDeadline) :
    fetchStage m ts oracle req scheme host url =
      .exc .deadlineExceeded Response.initial := by
  simp only [fetchStage, hs]

/-! ## `afterFetchResponse` branch equations -/

theorem afterFetch_trunc (rangemethod : Bool) (scheme host : String)
    (res0 : Response) (fetched : FetchResult)
    (ht : fetched.content_was_truncated = true) :
    afterFetchResponse rangemethod scheme host res0 fetched =
      send_response (fheadersOf scheme host fetched)
        ((annotatedBase res0 fetched).setHeader H_TRUNCATED "true")
        (resIgnoreHeaders fetched) fetched.content := by
  simp only [afterFetchResponse, ht, if_true]

theorem afterFetch_nonrange (scheme host : String)
    (res0 : Response) (fetched : FetchResult)
    (ht : fetched.content_was_truncated = false) :
    afterFetchResponse false scheme host res0 fetched =
      send_response (fheadersOf scheme host fetched) (annotatedBase res0 fetched)
        (resIgnoreHeaders fetched) fetched.content := by
  simp only [afterFetchResponse, ht, Bool.not_false, if_true, if_false]
  rfl

theorem afterFetch_200 (scheme host : String)
    (res0 : Response) (fetched : FetchResult)
    (ht : fetched.content_was_truncated = false)
    (h200 : fetched.status_code = 200) :
    afterFetchResponse true scheme host res0 fetched =
      send_response (fheadersOf scheme host fetched) (annotatedBase res0 fetched)
        (resIgnoreHeaders fetched) fetched.content := by
  simp only [afterFetchResponse, ht, h200, Bool.not_true, if_true, if_false,
    Bool.false_eq_true]

theorem afterFetch_206 (scheme host : String)
    (res0 : Response) (fetched : FetchResult)
    (ht : fetched.content_was_truncated = false)
    (h206 : fetched.status_code = 206) :
    afterFetchResponse true scheme host res0 fetched =
      send_response (fheadersOf scheme host fetched)
        ((annotatedBase res0 fetched).setHeader H_UPSTREAM_CONTENT_RANGE
          (crangeOf scheme host fetched))
        (resIgnoreHeaders fetched) fetched.content := by
  simp only [afterFetchResponse, ht, h206, Bool.not_true, if_true, if_false,
    Bool.false_eq_true]
  norm_num
  split
  · rfl
  · rfl

theorem afterFetch_other (scheme host : String)
    (res0 : Response) (fetched : FetchResult)
    (ht : fetched.content_was_truncated = false)
    (h200 : fetched.status_code ≠ 200)
    (h206 : fetched.status_code ≠ 206) :
    afterFetchResponse true scheme host res0 fetched =
      send_response (fheadersOf scheme host fetched) (annotatedBase res0 fetched)
        (resIgnoreHeaders fetched) fetched.content := by
  simp only [afterFetchResponse, ht, if_neg h200, if_neg h206, Bool.not_true,
    if_false, Bool.false_eq_true]

/-! ## Response accessor lemmas -/

@[simp] theorem Response.error_headers (c : Nat) (r : Response) :
    (Response.error c r).headers = r.headers := rfl

@[simp] theorem Response.error_status (c : Nat) (r : Response) :
    (Response.error c r).status = c := rfl

@[simp] theorem Response.error_body (c : Nat) (r : Response) :
    (Response.error c r).body = "" := rfl

@[simp] theorem Response.setHeader_headers (r : Response) (k v : String) :
    (r.setHeader k v).headers = r.headers.set k v := rfl

@[simp] theorem Response.setHeader_status (r : Response) (k v : String) :
    (r.setHeader k v).status = r.status := rfl

@[simp] theorem Response.setHeader_body (r : Response) (k v : String) :
    (r.setHeader k v).body = r.body := rfl

@[simp] theorem Response.initial_headers : Response.initial.headers = ⟨[]⟩ := rfl

@[simp] theorem Response.initial_status : Response.initial.status = 200 := rfl

@[simp] theorem Response.initial_body : Response.initial.body = "" := rfl

@[simp] theorem send_response_headers (f : Headers) (r : Response)
    (ig : List String) (c : String) :
    (send_response f r ig c).headers = copy_headers f r.headers ig := rfl

@[simp] theorem send_response_status (f : Headers) (r : Response)
    (ig : List String) (c : String) :
    (send_response f r ig c).status = r.status := rfl

@[simp] theorem send_response_body (f : Headers) (r : Response)
    (ig : List String) (c : String) :
    (send_response f r ig c).body = r.body ++ c := rfl

/-- Headers-level wrappers of the fold lemmas, via structure eta. -/
theorem copy_count_one_h (ig : List String) (n : String) (f dst : Headers)
    (h : dst.count n = 1) : (copy_headers f dst ig).count n = 1 :=
  copy_count_one ig n f.entries dst h

theorem copy_get_of_from_clean_h (ig : List String) (n : String) (f dst : Headers)
    (hcl : ∀ e ∈ f.entries, e.1.lowerAscii ≠ n.lowerAscii) :
    (copy_headers f dst ig).get n = dst.get n :=
  copy_get_of_from_clean ig n f.entries dst hcl

theorem copy_forall_h (P : String → String → Prop) (ig : List String)
    (f dst : Headers)
    (hdst : ∀ a b, (a, b) ∈ dst.entries → P a b)
    (hfrom : ∀ a b, (a, b) ∈ f.entries → a.lowerAscii ∉ ig → P a b) :
    ∀ a b, (a, b) ∈ (copy_headers f dst ig).entries → P a b :=
  copy_forall P ig f.entries dst hdst hfrom

/-! ## Annotation lemmas -/

theorem annotatedBase_status (res0 : Response) (fetched : FetchResult) :
    (annotatedBase res0 fetched).status = fetched.status_code := rfl

theorem annotatedBase_get_statuscode (res0 : Response) (fetched : FetchResult) :
    (annotatedBase res0 fetched).headers.get H_UPSTREAM_STATUS_CODE =
      some (toString fetched.status_code) := by
  unfold annotatedBase
  simp only [Response.setHeader_headers]
  rw [Headers.get_set, if_neg (by decide), Headers.get_set, if_pos (by decide)]

theorem annotatedBase_get_server (res0 : Response) (fetched : FetchResult) :
    (annotatedBase res0 fetched).headers.get H_UPSTREAM_SERVER =
      some ((fetched.headers.get "server").getD "") := by
  unfold annotatedBase
  simp only [Response.setHeader_headers]
  rw [Headers.get_set, if_pos (by decide)]

theorem annotatedBase_get_result (res0 : Response) (fetched : FetchResult) :
    (annotatedBase res0 fetched).headers.get H_LAEPROXY_RESULT =
      res0.headers.get H_LAEPROXY_RESULT := by
  unfold annotatedBase
  simp only [Response.setHeader_headers]
  rw [Headers.get_set, if_neg (by decide), Headers.get_set, if_neg (by decide)]

theorem annotatedBase_count_result (res0 : Response) (fetched : FetchResult)
    (h : res0.headers.count "x-laeproxy-result" = 1) :
    (annotatedBase res0 fetched).headers.count "x-laeproxy-result" = 1 := by
  unfold annotatedBase
  simp only [Response.setHeader_headers]
  rw [Headers.count_set, if_neg (by decide), Headers.count_set, if_neg (by decide)]
  exact h

theorem mem_annotatedBase {res0 : Response} {fetched : FetchResult} {a b : String}
    (hab : (a, b) ∈ (annotatedBase res0 fetched).headers.entries) :
    (a, b) ∈ res0.headers.entries ∨
      a = H_UPSTREAM_STATUS_CODE ∨ a = H_UPSTREAM_SERVER := by
  unfold annotatedBase at hab
  simp only [Response.setHeader_headers] at hab
  rw [Headers.mem_set] at hab
  rcases hab with ⟨hm, _⟩ | ⟨ha, _⟩
  · rw [Headers.mem_set] at hm
    rcases hm with ⟨hm2, _⟩ | ⟨ha2, _⟩
    · exact Or.inl hm2
    · exact Or.inr (Or.inl ha2)
  · exact Or.inr (Or.inr ha)

/-! ## Result-header counting through the pipeline -/

theorem send_count_result (f : Headers) (r : Response) (ig : List String)
    (c : String) (h : r.headers.count "x-laeproxy-result" = 1) :
    (send_response f r ig c).headers.count "x-laeproxy-result" = 1 := by
  rw [send_response_headers]
  exact copy_count_one_h ig _ f r.headers h

theorem afterFetch_count_result (rangemethod : Bool) (scheme host : String)
    (res0 : Response) (fetched : FetchResult)
    (h : res0.headers.count "x-laeproxy-result" = 1) :
    (afterFetchResponse rangemethod scheme host res0 fetched).headers.count
      "x-laeproxy-result" = 1 := by
  have hbase := annotatedBase_count_result res0 fetched h
  unfold afterFetchResponse
  split
  · apply send_count_result
    simp only [Response.setHeader_headers]
    rw [Headers.count_set, if_neg (by decide)]
    exact hbase
  · split
    · exact send_count_result _ _ _ _ hbase
    · split
      · exact send_count_result _ _ _ _ hbase
      · split
        · split
          · apply send_count_result
            simp only [Response.setHeader_headers]
            rw [Headers.count_set, if_neg (by decide)]
            exact hbase
          · apply send_count_result
            simp only [Response.setHeader_headers]
            rw [Headers.count_set, if_neg (by decide)]
            exact hbase
        · exact send_count_result _ _ _ _ hbase

theorem handler_normal_count (m : Method) (ts : String)
    (oracle : OutgoingFetch → FetchOutcome) (req : Request) :
    ∀ r : Response, (handler m ts oracle req).1 = .normal r →
      r.headers.count "x-laeproxy-result" = 1 := by
  intro r
  unfold handler
  split
  · intro h
    exact absurd h (by simp)
  · split
    · intro h
      injection h with h1
      subst h1
      simp only [Response.error_headers, Response.setHeader_headers,
        Response.initial_headers]
      rw [Headers.count_set, if_pos (by decide)]
    · split
      · intro h
        injection h with h1
        subst h1
        simp only [Response.error_headers, Response.setHeader_headers,
          Response.initial_headers]
        rw [Headers.count_set, if_pos (by decide)]
      · unfold fetchStage
        split
        · intro h
          exact absurd h (by simp)
        · intro h
          injection h with h1
          subst h1
          simp only [Response.error_headers, Response.setHeader_headers,
            Response.initial_headers]
          rw [Headers.count_set, if_pos (by decide)]
        · intro h
          injection h with h1
          subst h1
          simp only [Response.error_headers, Response.setHeader_headers,
            Response.initial_headers]
          rw [Headers.count_set, if_pos (by decide)]
        · intro h
          injection h with h1
          subst h1
          simp only [Response.error_headers, Response.setHeader_headers,
            Response.initial_headers]
          rw [Headers.count_set, if_pos (by decide)]
        · intro h
          injection h with h1
          subst h1
          simp only [Response.error_headers, Response.setHeader_headers,
            Response.initial_headers]
          rw [Headers.count_set, if_pos (by decide)]
        · intro h
          injection h with h1
          subst h1
          apply afterFetch_count_result
          simp only [Response.setHeader_headers, Response.initial_headers]
          rw [Headers.count_set, if_pos (by decide)]

/-! ## Outcome projections -/

/-- The response headers carried by a handler outcome. -/
def outcomeHeaders : HandlerOutcome → Headers
  | .normal r => r.headers
  | .exc _ r => r.headers

/-- The response status carried by a handler outcome. -/
def outcomeStatus : HandlerOutcome → Nat
  | .normal r => r.status
  | .exc _ r => r.status

/-- The response body carried by a handler outcome. -/
def outcomeBody : HandlerOutcome → String
  | .normal r => r.body
  | .exc _ r => r.body

/-- Whether the handler returned (rather than let an exception escape). -/
def outcomeIsNormal : HandlerOutcome → Bool
  | .normal _ => true
  | .exc _ _ => false

/-! ## Range admission case lemmas -/

theorem payloadLen_get (req : Request) : payloadLen .get req = 0 := rfl

theorem rangeAdmission_multi (r1 r2 : Int × Option Int) (rest : List (Int × Option Int)) :
    rangeAdmission true (some (r1 :: r2 :: rest)) =
      .reject 400 "Multiple ranges unsupported" := by
  obtain ⟨a1, b1⟩ := r1
  obtain ⟨a2, b2⟩ := r2
  cases b1 <;> cases b2 <;> rfl

theorem rangeAdmission_bad_order (x y : Int) (h : ¬(0 ≤ x ∧ x ≤ y - 1)) :
    rangeAdmission true (some [(x, some y)]) =
      .reject 416 "Range must satisfy 0 <= range_start <= range_end" := by
  unfold rangeAdmission
  simp only [Bool.not_true, if_false, Bool.false_eq_true]
  rw [if_pos h]

theorem rangeAdmission_too_big (x y : Int) (h1 : 0 ≤ x ∧ x ≤ y - 1)
    (h2 : y - x > RANGE_REQ_SIZE) :
    rangeAdmission true (some [(x, some y)]) =
      .reject 400 ("Range specifies " ++ toString (y - x) ++
        " bytes, limit is " ++ toString RANGE_REQ_SIZE) := by
  unfold rangeAdmission
  simp only [Bool.not_true, if_false, Bool.false_eq_true]
  rw [if_neg (not_not_intro h1), if_pos (by omega : y - 1 - x + 1 > RANGE_REQ_SIZE)]
  have harith : y - 1 - x + 1 = y - x := by omega
  rw [harith]

theorem rangeAdmission_accept_closed (x y : Int) (h1 : 0 ≤ x ∧ x ≤ y - 1)
    (h2 : ¬(y - 1 - x + 1 > RANGE_REQ_SIZE)) :
    rangeAdmission true (some [(x, some y)]) = .accept (some (x, y - 1)) := by
  unfold rangeAdmission
  simp only [Bool.not_true, if_false, Bool.false_eq_true]
  rw [if_neg (not_not_intro h1), if_neg h2]

/-! ## Rejected-response lemmas -/

theorem rejectedResponse_status (st : Nat) (msg : String) :
    (rejectedResponse st msg).status = st := rfl

theorem rejectedResponse_body (st : Nat) (msg : String) :
    (rejectedResponse st msg).body = "" := rfl

theorem rejectedResponse_result (st : Nat) (msg : String) :
    (rejectedResponse st msg).headers.get H_LAEPROXY_RESULT = some msg := by
  unfold rejectedResponse
  simp only [Response.setHeader_headers, Response.error_headers]
  rw [Headers.get_set, if_neg (by decide), Headers.get_set, if_pos (by decide)]

theorem rejectedResponse_version (st : Nat) (msg : String) :
    (rejectedResponse st msg).headers.get H_LAEPROXY_VER = some laeproxyVersion := by
  unfold rejectedResponse
  simp only [Response.setHeader_headers, Response.error_headers]
  rw [Headers.get_set, if_pos (by decide)]

/-! ## Header-predicate preservation -/

theorem forall_set {P : String → String → Prop} {h : Headers} {k v : String}
    (hh : ∀ a b, (a, b) ∈ h.entries → P a b) (hkv : P k v) :
    ∀ a b, (a, b) ∈ (h.set k v).entries → P a b := by
  intro a b hab
  rw [Headers.mem_set] at hab
  rcases hab with ⟨hm, _⟩ | ⟨ha, hb⟩
  · exact hh a b hm
  · subst ha; subst hb; exact hkv

theorem fixLocation_get_ne (scheme host : String) (f : Headers) (n : String)
    (hn : ¬("location" : String).lowerAscii = n.lowerAscii) :
    (fixLocation scheme host f).get n = f.get n := by
  unfold fixLocation fixLocationWith
  split
  · rw [Headers.get_set, if_neg hn]
  · rfl

/-- Every header of the shaped response either was already on the
annotated base, is one of the `X-laeproxy-truncated` /
`X-laeproxy-upstream-content-range` annotations, or was copied from the
(location-corrected) fetched headers and is not in the response strip
set. -/
theorem afterFetch_forall (P : String → String → Prop) (rangemethod : Bool)
    (scheme host : String) (res0 : Response) (fetched : FetchResult)
    (hbase : ∀ a b, (a, b) ∈ (annotatedBase res0 fetched).headers.entries → P a b)
    (htrunc : ∀ v, P H_TRUNCATED v)
    (hcrange : ∀ v, P H_UPSTREAM_CONTENT_RANGE v)
    (hfrom : ∀ a b, (a, b) ∈ (fheadersOf scheme host fetched).entries →
      a.lowerAscii ∉ resIgnoreHeaders fetched → P a b) :
    ∀ a b, (a, b) ∈ (afterFetchResponse rangemethod scheme host res0
      fetched).headers.entries → P a b := by
  unfold afterFetchResponse
  split
  · intro a b hab
    rw [send_response_headers] at hab
    exact copy_forall_h P _ _ _
      (forall_set hbase (htrunc "true")) hfrom a b (by simpa using hab)
  · split
    · intro a b hab
      rw [send_response_headers] at hab
      exact copy_forall_h P _ _ _ hbase hfrom a b hab
    · split
      · intro a b hab
        rw [send_response_headers] at hab
        exact copy_forall_h P _ _ _ hbase hfrom a b hab
      · split
        · split
          · intro a b hab
            rw [send_response_headers] at hab
            exact copy_forall_h P _ _ _
              (forall_set hbase (hcrange _)) hfrom a b (by simpa using hab)
          · intro a b hab
            rw [send_response_headers] at hab
            exact copy_forall_h P _ _ _
              (forall_set hbase (hcrange _)) hfrom a b (by simpa using hab)
        · intro a b hab
          rw [send_response_headers] at hab
          exact copy_forall_h P _ _ _ hbase hfrom a b hab

/-- The annotations recorded before branching survive the response
shaping whenever the fetched headers carry no entry of the same name
and the name is none of the branch-specific annotation names. -/
theorem afterFetch_get_annot (rangemethod : Bool) (scheme host : String)
    (res0 : Response) (fetched : FetchResult) (n : String)
    (hfrom : ∀ e ∈ (fheadersOf scheme host fetched).entries,
      e.1.lowerAscii ≠ n.lowerAscii)
    (hne1 : ¬(H_TRUNCATED.lowerAscii = n.lowerAscii))
    (hne2 : ¬(H_UPSTREAM_CONTENT_RANGE.lowerAscii = n.lowerAscii)) :
    (afterFetchResponse rangemethod scheme host res0 fetched).headers.get n =
      (annotatedBase res0 fetched).headers.get n := by
  unfold afterFetchResponse
  split
  · rw [send_response_headers, copy_get_of_from_clean_h _ _ _ _ hfrom]
    simp only [Response.setHeader_headers]
    rw [Headers.get_set, if_neg hne1]
  · split
    · rw [send_response_headers, copy_get_of_from_clean_h _ _ _ _ hfrom]
    · split
      · rw [send_response_headers, copy_get_of_from_clean_h _ _ _ _ hfrom]
      · split
        · split
          · rw [send_response_headers, copy_get_of_from_clean_h _ _ _ _ hfrom]
            simp only [Response.setHeader_headers]
            rw [Headers.get_set, if_neg hne2]
          · rw [send_response_headers, copy_get_of_from_clean_h _ _ _ _ hfrom]
            simp only [Response.setHeader_headers]
            rw [Headers.get_set, if_neg hne2]
        · rw [send_response_headers, copy_get_of_from_clean_h _ _ _ _ hfrom]

/-! # Claim theorems -/

/-- Failing input: proxy-encoded path with no `/` after the scheme. -/
def reqInvalidUrl : Request :=
  { path_qs := "/http", host := "laeproxy.appspot.com", headers := ⟨[]⟩,
    body := "", rangeParsed := some [(0, some 100)] }

/-- Failing input: empty decoded host. -/
def reqMissingHost : Request :=
  { path_qs := "/http//index.html", host := "laeproxy.appspot.com",
    headers := ⟨[]⟩, body := "", rangeParsed := some [(0, some 100)] }

/-- Failing input: target host equals the proxy's own authority
(case-insensitively). -/
def reqRecursive : Request :=
  { path_qs := "/http/LAEPROXY.appspot.COM/x", host := "laeproxy.appspot.com",
    headers := ⟨[]⟩, body := "", rangeParsed := some [(0, some 100)] }

/-- A fetch oracle whose value is irrelevant (not consulted on the
paths under study). -/
def oracleUnused : OutgoingFetch → FetchOutcome := fun _ => .otherError "unused"

/-- **C1** (code bug).  On each URL-Decoder failure `_extract_url` does
store the claimed distinct result string, runs `self.error(404)`, and
`fetch` is never invoked — but `_extract_url` then returns `None`
(`self.error` has no return value), so the handler's tuple unpacking
`url, scheme, host = self._extract_url(req)` raises a `TypeError` that
escapes the core (`catch_deadline_exceeded` only catches
`DeadlineExceededError`; its `finally` still stamps the version
header).  The core therefore never returns the 404 response the claim
describes; the enclosing HTTP server turns the escaped exception into
its own 500.  This theorem evaluates the pipeline at the three failing
inputs: the outcome is an escaped `TypeError`, not a returned
response. -/
theorem c1_decoder_failure_raises :
    (processRequest .get "ts" oracleUnused reqInvalidUrl =
      (.exc .typeError ((Response.error 404 (Response.initial.setHeader
        H_LAEPROXY_RESULT "Invalid url")).setHeader H_LAEPROXY_VER laeproxyVersion),
       none)) ∧
    (processRequest .get "ts" oracleUnused reqMissingHost =
      (.exc .typeError ((Response.error 404 (Response.initial.setHeader
        H_LAEPROXY_RESULT "Missing host")).setHeader H_LAEPROXY_VER laeproxyVersion),
       none)) ∧
    (processRequest .get "ts" oracleUnused reqRecursive =
      (.exc .typeError ((Response.error 404 (Response.initial.setHeader
        H_LAEPROXY_RESULT IGNORED_RECURSIVE)).setHeader H_LAEPROXY_VER laeproxyVersion),
       none)) :=
  ⟨processRequest_extract_error _ _ _ _ _ rfl,
   processRequest_extract_error _ _ _ _ _ rfl,
   processRequest_extract_error _ _ _ _ _ rfl⟩

/-- **C2** (confirmed).  The GET range admission decides exactly per
the spec table on webob's parsed view of the `Range` header, before
any fetch: `none` (missing/unparseable) → 400 "Missing or invalid
range header"; two or more ranges → 400 "Multiple ranges unsupported";
a single half-open pair — webob's encoding of both the suffix
`bytes=-N` (as `(-N, none)`) and the open-ended `bytes=X-` (as
`(X, none)`) — → 400 "Range must be of the form bytes=x-y"; a closed
pair `(x, some y)` (inclusive end `y - 1`) violating
`0 ≤ x ≤ y - 1` → 416; an admissible range of more than
`RANGE_REQ_SIZE` bytes → 400 with the size message.  In every case the
fetch-invocation component is `none`. -/
theorem c2_range_admission (ts : String) (oracle : OutgoingFetch → FetchOutcome)
    (req : Request) (url scheme host : String)
    (hx : extract_url req.path_qs req.host = .ok (url, scheme, host)) :
    ((req.rangeParsed = none →
      processRequest .get ts oracle req =
        (.normal (rejectedResponse 400 "Missing or invalid range header"), none)) ∧
     (∀ r1 r2 rest, req.rangeParsed = some (r1 :: r2 :: rest) →
      processRequest .get ts oracle req =
        (.normal (rejectedResponse 400 "Multiple ranges unsupported"), none)) ∧
     (∀ x, req.rangeParsed = some [(x, none)] →
      processRequest .get ts oracle req =
        (.normal (rejectedResponse 400 "Range must be of the form bytes=x-y"), none)) ∧
     (∀ x y, req.rangeParsed = some [(x, some y)] → ¬(0 ≤ x ∧ x ≤ y - 1) →
      processRequest .get ts oracle req =
        (.normal (rejectedResponse 416
          "Range must satisfy 0 <= range_start <= range_end"), none)) ∧
     (∀ x y, req.rangeParsed = some [(x, some y)] → (0 ≤ x ∧ x ≤ y - 1) →
      y - x > RANGE_REQ_SIZE →
      processRequest .get ts oracle req =
        (.normal (rejectedResponse 400 ("Range specifies " ++ toString (y - x) ++
          " bytes, limit is " ++ toString RANGE_REQ_SIZE)), none))) ∧
    (∀ st msg, (rejectedResponse st msg).status = st ∧
      (rejectedResponse st msg).headers.get H_LAEPROXY_RESULT = some msg) := by
  have hlen : payloadLen .get req < URLFETCH_REQ_MAXBYTES := by
    rw [payloadLen_get]; decide
  refine ⟨⟨?_, ?_, ?_, ?_, ?_⟩, ?_⟩
  · intro h
    exact processRequest_reject _ _ _ _ _ _ _ _ _ hx hlen (by rw [h]; rfl)
  · intro r1 r2 rest h
    exact processRequest_reject _ _ _ _ _ _ _ _ _ hx hlen
      (by rw [h]; exact rangeAdmission_multi r1 r2 rest)
  · intro x h
    exact processRequest_reject _ _ _ _ _ _ _ _ _ hx hlen (by rw [h]; rfl)
  · intro x y h hbad
    exact processRequest_reject _ _ _ _ _ _ _ _ _ hx hlen
      (by rw [h]; exact rangeAdmission_bad_order x y hbad)
  · intro x y h hord hbig
    exact processRequest_reject _ _ _ _ _ _ _ _ _ hx hlen
      (by rw [h]; exact rangeAdmission_too_big x y hord hbig)
  · intro st msg
    exact ⟨rejectedResponse_status st msg, rejectedResponse_result st msg⟩

/-- Concrete GET carrying `Range: bytes=5-2` (webob pair `(5, some 3)`
would not arise from webob 1.1.1, but the admission decides it as the
table says). -/
def c2WitnessReq : Request :=
  { path_qs := "/http/origin.example/file", host := "laeproxy.appspot.com",
    headers := ⟨[]⟩, body := "", rangeParsed := some [(5, some 3)] }

/-- Witness for C2: the 416 case at the concrete pair `(5, some 3)`. -/
theorem c2_range_admission_witness :
    processRequest .get "ts" oracleUnused c2WitnessReq =
      (.normal (rejectedResponse 416
        "Range must satisfy 0 <= range_start <= range_end"), none) :=
  ((c2_range_admission "ts" oracleUnused c2WitnessReq
      "http://origin.example/file" "http" "origin.example" rfl).1.2.2.2.1)
    5 3 rfl (by decide)

/-- **C8** (confirmed).  The deadline guard's `except
DeadlineExceededError` branch, over an arbitrary accumulated response
`r` (the pipeline may be interrupted at any point): status becomes
504, `MISSED_DEADLINE_GAE` is appended to the current result string
(the empty string when none was set), the version header is present,
and every other accumulated header entry survives. -/
theorem c8_deadline_guard (r : Response) :
    catch_deadline_exceeded (.exc .deadlineExceeded r) = .normal (deadlineRecovery r) ∧
    (deadlineRecovery r).status = 504 ∧
    (deadlineRecovery r).headers.get H_LAEPROXY_RESULT =
      some (((r.headers.get H_LAEPROXY_RESULT).getD "") ++ MISSED_DEADLINE_GAE) ∧
    (deadlineRecovery r).headers.get H_LAEPROXY_VER = some laeproxyVersion ∧
    (∀ a b, (a, b) ∈ r.headers.entries →
      a.lowerAscii ≠ H_LAEPROXY_RESULT.lowerAscii →
      a.lowerAscii ≠ H_LAEPROXY_VER.lowerAscii →
      (a, b) ∈ (deadlineRecovery r).headers.entries) := by
  refine ⟨rfl, rfl, ?_, ?_, ?_⟩
  · unfold deadlineRecovery
    simp only [Response.setHeader_headers, Response.error_headers]
    rw [Headers.get_set, if_neg (by decide), Headers.get_set, if_pos (by decide)]
  · unfold deadlineRecovery
    simp only [Response.setHeader_headers, Response.error_headers]
    rw [Headers.get_set, if_pos (by decide)]
  · intro a b hab hres hver
    unfold deadlineRecovery
    simp only [Response.setHeader_headers, Response.error_headers]
    rw [Headers.mem_set]
    left
    refine ⟨?_, hver⟩
    rw [Headers.mem_set]
    exact Or.inl ⟨hab, hres⟩

/-- A mid-pipeline response state with one foreign header and a
result string already set. -/
def c8WitnessResponse : Response :=
  { status := 200,
    headers := ⟨[("X-Foo", "bar"), ("X-laeproxy-result", "Partial work")]⟩,
    body := "partial" }

/-- Witness for C8 at a concrete accumulated response. -/
theorem c8_deadline_guard_witness :
    (deadlineRecovery c8WitnessResponse).status = 504 ∧
    (deadlineRecovery c8WitnessResponse).headers.get H_LAEPROXY_RESULT =
      some ("Partial work" ++ MISSED_DEADLINE_GAE) ∧
    ("X-Foo", "bar") ∈ (deadlineRecovery c8WitnessResponse).headers.entries :=
  ⟨(c8_deadline_guard c8WitnessResponse).2.1,
   (c8_deadline_guard c8WitnessResponse).2.2.1,
   (c8_deadline_guard c8WitnessResponse).2.2.2.2 "X-Foo" "bar"
     (by decide) (by decide) (by decide)⟩

/-! ## Deadline-recovery access lemmas (shared) -/

theorem deadlineRecovery_version (r : Response) :
    (deadlineRecovery r).headers.get H_LAEPROXY_VER = some laeproxyVersion := by
  unfold deadlineRecovery
  simp only [Response.setHeader_headers, Response.error_headers]
  rw [Headers.get_set, if_pos (by decide)]

theorem deadlineRecovery_count_result (r : Response) :
    (deadlineRecovery r).headers.count "x-laeproxy-result" = 1 := by
  unfold deadlineRecovery
  simp only [Response.setHeader_headers, Response.error_headers]
  rw [Headers.count_set, if_neg (by decide), Headers.count_set, if_pos (by decide)]

/-- `"" ++ s = s` for strings. -/
theorem empty_append_str (s : String) : "" ++ s = s := rfl

/-- Failing input shared with the URL-Decoder analysis: a GET whose
proxy path has no `/` after the scheme, with a valid range. -/
def c4WitnessReq : Request :=
  { path_qs := "/http/origin.example/x", host := "laeproxy.appspot.com",
    headers := ⟨[]⟩, body := "", rangeParsed := none }

/-- **C4** (code bug).  Whenever the handler returns a response — every
outcome in which the core itself answers: payload and range
rejections, each fetch error classification, every completed fetch,
and recovery from the overall deadline — that response carries the
version header and exactly one `X-laeproxy-result` header.  But on a
URL-Decoder rejection (second conjunct, evaluated at a concrete
request) the handler raises a `TypeError` out of the core instead of
returning, so the response the client sees on that path is produced by
the out-of-scope HTTP server, not by the core, contradicting the
claim's "any outcome including decoder rejection". -/
theorem c4_result_headers :
    (∀ (m : Method) (ts : String) (oracle : OutgoingFetch → FetchOutcome)
       (req : Request) (r : Response),
      (processRequest m ts oracle req).1 = .normal r →
      r.headers.get H_LAEPROXY_VER = some laeproxyVersion ∧
      r.headers.count "x-laeproxy-result" = 1) ∧
    (processRequest .get "ts" oracleUnused reqInvalidUrl).1 =
      .exc .typeError ((Response.error 404 (Response.initial.setHeader
        H_LAEPROXY_RESULT "Invalid url")).setHeader H_LAEPROXY_VER laeproxyVersion) := by
  constructor
  · intro m ts oracle req r h
    have hpr : (processRequest m ts oracle req).1 =
        catch_deadline_exceeded (handler m ts oracle req).1 := rfl
    rw [hpr] at h
    cases ho : (handler m ts oracle req).1 with
    | normal r0 =>
      rw [ho, catch_normal] at h
      injection h with h1
      subst h1
      constructor
      · simp only [Response.setHeader_headers]
        rw [Headers.get_set, if_pos (by decide)]
      · simp only [Response.setHeader_headers]
        rw [Headers.count_set, if_neg (by decide)]
        exact handler_normal_count m ts oracle req r0 ho
    | exc e r0 =>
      cases e with
      | typeError =>
        rw [ho] at h
        exact absurd h (by simp [catch_deadline_exceeded])
      | deadlineExceeded =>
        rw [ho] at h
        have h2 : HandlerOutcome.normal (deadlineRecovery r0) = .normal r := h
        injection h2 with h1
        subst h1
        exact ⟨deadlineRecovery_version r0, deadlineRecovery_count_result r0⟩
  · exact congrArg Prod.fst
      (processRequest_extract_error .get "ts" oracleUnused reqInvalidUrl "Invalid url" rfl)

/-- Witness for C4's universally quantified part, at a GET refused for
a missing range header. -/
theorem c4_result_headers_witness :
    (rejectedResponse 400 "Missing or invalid range header").headers.get
      H_LAEPROXY_VER = some laeproxyVersion ∧
    (rejectedResponse 400 "Missing or invalid range header").headers.count
      "x-laeproxy-result" = 1 :=
  c4_result_headers.1 .get "ts" oracleUnused c4WitnessReq
    (rejectedResponse 400 "Missing or invalid range header") (by decide)

/-- **C3** (confirmed).  For a GET whose fetch completes with a
non-truncated 206: the fulfillment check of laeproxy.py:270 holds iff
the parsed `S` equals the admitted range start and the parsed `E` is
at most the admitted (inclusive) range end; and the upstream body and
status are passed through to the client unchanged.  The pass-through
conclusions hold without any condition on the parse, so a 206 whose
`Content-Range` fails to parse is returned unchanged as well, exactly
as the claim states. -/
theorem c3_206_fulfillment (ts : String) (oracle : OutgoingFetch → FetchOutcome)
    (req : Request) (url scheme host : String) (x y : Int) (fetched : FetchResult)
    (hx : extract_url req.path_qs req.host = .ok (url, scheme, host))
    (hr : rangeAdmission Method.get.isRange req.rangeParsed = .accept (some (x, y)))
    (hs : oracle (mkOutgoingFetch .get req url) = .success fetched)
    (h206 : fetched.status_code = 206)
    (ht : fetched.content_was_truncated = false) :
    outcomeIsNormal (processRequest .get ts oracle req).1 = true ∧
    outcomeStatus (processRequest .get ts oracle req).1 = 206 ∧
    outcomeBody (processRequest .get ts oracle req).1 = fetched.content ∧
    (∀ S E T, parseContentRange (crangeOf scheme host fetched) = some (S, E, T) →
      (fulfillmentCheck x y S E = true ↔ (S = x ∧ E ≤ y))) := by
  have hlen : payloadLen .get req < URLFETCH_REQ_MAXBYTES := by
    rw [payloadLen_get]; decide
  have hpr := processRequest_fetch .get ts oracle req url scheme host (some (x, y))
    hx hlen hr
  have h1 : (processRequest .get ts oracle req).1 =
      catch_deadline_exceeded (fetchStage .get ts oracle req scheme host url) := by
    rw [hpr]
  rw [fetchStage_success .get ts oracle req scheme host url fetched hs,
    catch_normal] at h1
  simp only [Method.isRange] at h1
  refine ⟨?_, ?_, ?_, ?_⟩
  · rw [h1]; rfl
  · rw [h1]
    simp only [outcomeStatus, Response.setHeader_status]
    rw [afterFetch_206 scheme host _ fetched ht h206, send_response_status]
    simp only [Response.setHeader_status]
    rw [annotatedBase_status, h206]
  · rw [h1]
    simp only [outcomeBody, Response.setHeader_body]
    rw [afterFetch_206 scheme host _ fetched ht h206, send_response_body]
    simp only [Response.setHeader_body, Response.error_body, Response.initial_body]
    exact empty_append_str fetched.content
  · intro S E T _
    unfold fulfillmentCheck
    simp [Bool.and_eq_true, beq_iff_eq, decide_eq_true_eq]

/-- Concrete GET for the C3 witness: admitted range `bytes=0-99`,
origin answers 206 with `Content-Range: bytes 0-49/50` (fewer bytes
than requested because the entity is shorter). -/
def c3WitnessReq : Request :=
  { path_qs := "/http/origin.example/f", host := "laeproxy.appspot.com",
    headers := ⟨[]⟩, body := "", rangeParsed := some [(0, some 100)] }

def c3WitnessFetched : FetchResult :=
  { status_code := 206,
    headers := ⟨[("Content-Range", "bytes 0-49/50"), ("Server", "mock")]⟩,
    content := "c3body", content_was_truncated := false }

def c3Oracle : OutgoingFetch → FetchOutcome := fun _ => .success c3WitnessFetched

/-- Witness for C3 at the concrete 206 exchange. -/
theorem c3_206_fulfillment_witness :
    outcomeStatus (processRequest .get "ts" c3Oracle c3WitnessReq).1 = 206 ∧
    outcomeBody (processRequest .get "ts" c3Oracle c3WitnessReq).1 = "c3body" ∧
    (fulfillmentCheck 0 99 0 49 = true ↔ ((0 : Int) = 0 ∧ (49 : Int) ≤ 99)) := by
  have h := c3_206_fulfillment "ts" c3Oracle c3WitnessReq
    "http://origin.example/f" "http" "origin.example" 0 99 c3WitnessFetched
    rfl rfl rfl rfl rfl
  exact ⟨h.2.1, h.2.2.1, h.2.2.2 0 49 50 rfl⟩

/-! ## Annotation survival helpers -/

theorem startsWith_ne_of_clean {a n : String}
    (hstart : n.lowerAscii.startsWithAscii "x-laeproxy" = true)
    (ha : a.lowerAscii.startsWithAscii "x-laeproxy" = false) :
    a.lowerAscii ≠ n.lowerAscii := by
  intro hc
  rw [hc, hstart] at ha
  exact absurd ha (by decide)

/-- If the origin supplied no `X-laeproxy-*` header of its own, then no
entry of the (location-corrected) fetched headers matches an
`x-laeproxy`-prefixed name `n`. -/
theorem fheaders_clean {scheme host : String} {fetched : FetchResult} {n : String}
    (hclean : ∀ a b, (a, b) ∈ fetched.headers.entries →
      a.lowerAscii.startsWithAscii "x-laeproxy" = false)
    (hstart : n.lowerAscii.startsWithAscii "x-laeproxy" = true)
    (hloc : ¬(("location" : String).lowerAscii = n.lowerAscii)) :
    ∀ e ∈ (fheadersOf scheme host fetched).entries, e.1.lowerAscii ≠ n.lowerAscii := by
  intro e he
  obtain ⟨a, b⟩ := e
  rcases mem_fixLocation he with hmem | hloc2
  · exact startsWith_ne_of_clean hstart (hclean a b hmem)
  · subst hloc2
    exact hloc

/-- After a completed fetch with a clean origin, the pre-branch
annotation value of an `x-laeproxy`-prefixed name other than the
truncation and content-range annotations survives to the final
response. -/
theorem fetch_annot_preserved (m : Method) (ts : String)
    (oracle : OutgoingFetch → FetchOutcome) (req : Request)
    (url scheme host : String) (rd : Option (Int × Int)) (fetched : FetchResult)
    (n : String)
    (hx : extract_url req.path_qs req.host = .ok (url, scheme, host))
    (hlen : payloadLen m req < URLFETCH_REQ_MAXBYTES)
    (hr : rangeAdmission m.isRange req.rangeParsed = .accept rd)
    (hs : oracle (mkOutgoingFetch m req url) = .success fetched)
    (hclean : ∀ a b, (a, b) ∈ fetched.headers.entries →
      a.lowerAscii.startsWithAscii "x-laeproxy" = false)
    (hstart : n.lowerAscii.startsWithAscii "x-laeproxy" = true)
    (hloc : ¬(("location" : String).lowerAscii = n.lowerAscii))
    (hne1 : ¬(H_TRUNCATED.lowerAscii = n.lowerAscii))
    (hne2 : ¬(H_UPSTREAM_CONTENT_RANGE.lowerAscii = n.lowerAscii))
    (hnev : ¬(H_LAEPROXY_VER.lowerAscii = n.lowerAscii)) :
    (outcomeHeaders (processRequest m ts oracle req).1).get n =
      (annotatedBase (Response.initial.setHeader H_LAEPROXY_RESULT
        (RETRIEVED_FROM_NET ts)) fetched).headers.get n := by
  have hpr := processRequest_fetch m ts oracle req url scheme host rd hx hlen hr
  have h1 : (processRequest m ts oracle req).1 =
      catch_deadline_exceeded (fetchStage m ts oracle req scheme host url) := by
    rw [hpr]
  rw [fetchStage_success m ts oracle req scheme host url fetched hs,
    catch_normal] at h1
  rw [h1]
  simp only [outcomeHeaders, Response.setHeader_headers]
  rw [Headers.get_set, if_neg hnev]
  exact afterFetch_get_annot m.isRange scheme host _ fetched n
    (fheaders_clean hclean hstart hloc) hne1 hne2

/-- **C10** (confirmed).  For every request whose fetch call returns a
result — any status code, truncated or not, any method — with an
origin response carrying no `X-laeproxy-*` headers of its own, the
outgoing response carries `X-laeproxy-result` equal to
"Retrieved from network <timestamp>", `X-laeproxy-upstream-status-code`
equal to the decimal upstream status, and `X-laeproxy-upstream-server`
equal to the origin's `Server` value or the empty string. -/
theorem c10_fetch_annot (m : Method) (ts : String)
    (oracle : OutgoingFetch → FetchOutcome) (req : Request)
    (url scheme host : String) (rd : Option (Int × Int)) (fetched : FetchResult)
    (hx : extract_url req.path_qs req.host = .ok (url, scheme, host))
    (hlen : payloadLen m req < URLFETCH_REQ_MAXBYTES)
    (hr : rangeAdmission m.isRange req.rangeParsed = .accept rd)
    (hs : oracle (mkOutgoingFetch m req url) = .success fetched)
    (hclean : ∀ a b, (a, b) ∈ fetched.headers.entries →
      a.lowerAscii.startsWithAscii "x-laeproxy" = false) :
    (processRequest m ts oracle req).2 = some (mkOutgoingFetch m req url) ∧
    outcomeIsNormal (processRequest m ts oracle req).1 = true ∧
    (outcomeHeaders (processRequest m ts oracle req).1).get H_LAEPROXY_RESULT =
      some (RETRIEVED_FROM_NET ts) ∧
    (outcomeHeaders (processRequest m ts oracle req).1).get H_UPSTREAM_STATUS_CODE =
      some (toString fetched.status_code) ∧
    (outcomeHeaders (processRequest m ts oracle req).1).get H_UPSTREAM_SERVER =
      some ((fetched.headers.get "server").getD "") := by
  have hpr := processRequest_fetch m ts oracle req url scheme host rd hx hlen hr
  have h1 : (processRequest m ts oracle req).1 =
      catch_deadline_exceeded (fetchStage m ts oracle req scheme host url) := by
    rw [hpr]
  rw [fetchStage_success m ts oracle req scheme host url fetched hs,
    catch_normal] at h1
  refine ⟨by rw [hpr], by rw [h1]; rfl, ?_, ?_, ?_⟩
  · rw [fetch_annot_preserved m ts oracle req url scheme host rd fetched
      H_LAEPROXY_RESULT hx hlen hr hs hclean (by decide) (by decide) (by decide)
      (by decide) (by decide)]
    rw [annotatedBase_get_result]
    simp only [Response.setHeader_headers, Response.initial_headers]
    rw [Headers.get_set, if_pos (by decide)]
  · rw [fetch_annot_preserved m ts oracle req url scheme host rd fetched
      H_UPSTREAM_STATUS_CODE hx hlen hr hs hclean (by decide) (by decide) (by decide)
      (by decide) (by decide)]
    exact annotatedBase_get_statuscode _ fetched
  · rw [fetch_annot_preserved m ts oracle req url scheme host rd fetched
      H_UPSTREAM_SERVER hx hlen hr hs hclean (by decide) (by decide) (by decide)
      (by decide) (by decide)]
    exact annotatedBase_get_server _ fetched

/-- Concrete POST whose fetch returns an upstream 502 (an error
status): the annotations still record a network retrieval. -/
def c10WitnessReq : Request :=
  { path_qs := "/http/origin.example/submit", host := "laeproxy.appspot.com",
    headers := ⟨[]⟩, body := "payload", rangeParsed := none }

def c10WitnessFetched : FetchResult :=
  { status_code := 502,
    headers := ⟨[("Server", "edge-gw"), ("Retry-After", "1")]⟩,
    content := "bad gateway", content_was_truncated := false }

def c10Oracle : OutgoingFetch → FetchOutcome := fun _ => .success c10WitnessFetched

/-- Witness for C10 at a POST answered with upstream 502. -/
theorem c10_fetch_annot_witness :
    (outcomeHeaders (processRequest .post "t0" c10Oracle c10WitnessReq).1).get
      H_LAEPROXY_RESULT = some (RETRIEVED_FROM_NET "t0") ∧
    (outcomeHeaders (processRequest .post "t0" c10Oracle c10WitnessReq).1).get
      H_UPSTREAM_STATUS_CODE = some "502" ∧
    (outcomeHeaders (processRequest .post "t0" c10Oracle c10WitnessReq).1).get
      H_UPSTREAM_SERVER = some "edge-gw" := by
  have h := c10_fetch_annot .post "t0" c10Oracle c10WitnessReq
    "http://origin.example/submit" "http" "origin.example" none c10WitnessFetched
    rfl (by decide) rfl rfl (by intro a b hab; fin_cases hab <;> decide)
  exact ⟨h.2.2.1, h.2.2.2.1, h.2.2.2.2⟩

/-! ## C9: upstream content-range annotation -/

/-- Concrete GET with a valid range whose fetch returns a *truncated*
206 carrying a `Content-Range`. -/
def c9CounterReq : Request :=
  { path_qs := "/http/origin.example/f", host := "laeproxy.appspot.com",
    headers := ⟨[]⟩, body := "", rangeParsed := some [(0, some 100)] }

def c9CounterFetched : FetchResult :=
  { status_code := 206,
    headers := ⟨[("Content-Range", "bytes 0-4/10")]⟩,
    content := "hello", content_was_truncated := true }

def c9CounterOracle : OutgoingFetch → FetchOutcome := fun _ => .success c9CounterFetched

/-- **C9 counterexample.**  A truncated 206 (the truncation branch at
laeproxy.py:233-237 returns before line 254 is reached) yields a
response *without* `X-laeproxy-upstream-content-range`, refuting "this
holds for every 206, including when the fetch result is flagged
truncated". -/
theorem c9_counterexample :
    c9CounterFetched.status_code = 206 ∧
    c9CounterFetched.content_was_truncated = true ∧
    outcomeIsNormal (processRequest .get "t9" c9CounterOracle c9CounterReq).1 = true ∧
    (outcomeHeaders (processRequest .get "t9" c9CounterOracle c9CounterReq).1).get
      H_UPSTREAM_CONTENT_RANGE = none := by
  refine ⟨rfl, rfl, ?_, ?_⟩ <;> decide

/-- **C9 amended** (the truncated and non-GET cases removed, and the
origin assumed not to spoof `X-laeproxy-*` names): for every GET whose
fetch completes with a *non-truncated* 206, the outgoing response
carries `X-laeproxy-upstream-content-range` equal to the origin's raw
`Content-Range` value, or the empty string when the origin omitted
it. -/
theorem c9_amended (ts : String) (oracle : OutgoingFetch → FetchOutcome)
    (req : Request) (url scheme host : String) (rd : Option (Int × Int))
    (fetched : FetchResult)
    (hx : extract_url req.path_qs req.host = .ok (url, scheme, host))
    (hr : rangeAdmission Method.get.isRange req.rangeParsed = .accept rd)
    (hs : oracle (mkOutgoingFetch .get req url) = .success fetched)
    (h206 : fetched.status_code = 206)
    (ht : fetched.content_was_truncated = false)
    (hclean : ∀ a b, (a, b) ∈ fetched.headers.entries →
      a.lowerAscii.startsWithAscii "x-laeproxy" = false) :
    (outcomeHeaders (processRequest .get ts oracle req).1).get
      H_UPSTREAM_CONTENT_RANGE = some ((fetched.headers.get "content-range").getD "") := by
  have hlen : payloadLen .get req < URLFETCH_REQ_MAXBYTES := by
    rw [payloadLen_get]; decide
  have hpr := processRequest_fetch .get ts oracle req url scheme host rd hx hlen hr
  have h1 : (processRequest .get ts oracle req).1 =
      catch_deadline_exceeded (fetchStage .get ts oracle req scheme host url) := by
    rw [hpr]
  rw [fetchStage_success .get ts oracle req scheme host url fetched hs,
    catch_normal] at h1
  simp only [Method.isRange] at h1
  rw [h1]
  simp only [outcomeHeaders, Response.setHeader_headers]
  rw [Headers.get_set, if_neg (by decide)]
  rw [afterFetch_206 scheme host _ fetched ht h206, send_response_headers]
  rw [copy_get_of_from_clean_h _ _ _ _ (fheaders_clean hclean (by decide) (by decide))]
  simp only [Response.setHeader_headers]
  rw [Headers.get_set, if_pos (by decide)]
  unfold crangeOf fheadersOf
  rw [fixLocation_get_ne scheme host fetched.headers "content-range" (by decide)]

/-- Concrete non-truncated 206 exchange for the C9 witness. -/
def c9WitnessReq : Request :=
  { path_qs := "/http/origin.example/g", host := "laeproxy.appspot.com",
    headers := ⟨[]⟩, body := "", rangeParsed := some [(0, some 100)] }

def c9WitnessFetched : FetchResult :=
  { status_code := 206,
    headers := ⟨[("Content-Range", "bytes 0-4/10"), ("Server", "mock9")]⟩,
    content := "abcde", content_was_truncated := false }

def c9WitnessOracle : OutgoingFetch → FetchOutcome := fun _ => .success c9WitnessFetched

/-- Witness for the amended C9. -/
theorem c9_amended_witness :
    (outcomeHeaders (processRequest .get "t9w" c9WitnessOracle c9WitnessReq).1).get
      H_UPSTREAM_CONTENT_RANGE = some "bytes 0-4/10" :=
  c9_amended "t9w" c9WitnessOracle c9WitnessReq "http://origin.example/g" "http"
    "origin.example" (some (0, 99)) c9WitnessFetched rfl rfl rfl rfl rfl
    (by intro a b hab; fin_cases hab <;> decide)

/-! ## Last-writer-wins copy lemmas -/

/-- `copy_headers` processes the source entries in order and each copy
replaces the destination's value, so for any name that is not ignored,
the final value is the value of the *last* matching source entry —
whatever the destination held before.  (All entries matching a name
share its lowercase form, so either all of them or none of them are
ignored.) -/
theorem copy_get_last (ig : List String) (n v : String)
    (hnig : n.lowerAscii ∉ ig) :
    ∀ (l : List (String × String)) (dst : Headers),
      ((l.filter (fun e => e.1.lowerAscii == n.lowerAscii)).getLast?).map Prod.snd
        = some v →
      (copy_headers ⟨l⟩ dst ig).get n = some v := by
  intro l
  induction l with
  | nil => intro dst h; simp at h
  | cons e tl ih =>
    intro dst h
    rw [copy_headers_cons]
    rw [List.filter_cons] at h
    cases hpe : (e.1.lowerAscii == n.lowerAscii) with
    | false =>
      rw [hpe] at h
      rw [if_neg Bool.false_ne_true] at h
      by_cases hig : e.1.lowerAscii ∈ ig
      · rw [if_pos hig]
        exact ih dst h
      · rw [if_neg hig]
        exact ih _ h
    | true =>
      rw [hpe] at h
      rw [if_pos rfl] at h
      have hm : e.1.lowerAscii = n.lowerAscii := by simpa using hpe
      have hig : e.1.lowerAscii ∉ ig := by rw [hm]; exact hnig
      rw [if_neg hig]
      cases hft : tl.filter (fun e => e.1.lowerAscii == n.lowerAscii) with
      | nil =>
        rw [hft] at h
        have hv : e.2 = v := by simpa using h
        have hclean : ∀ x ∈ tl, x.1.lowerAscii ≠ n.lowerAscii := by
          intro x hx hcx
          have : x ∈ tl.filter (fun e => e.1.lowerAscii == n.lowerAscii) := by
            rw [List.mem_filter]
            exact ⟨hx, by simpa using hcx⟩
          rw [hft] at this
          exact absurd this (List.not_mem_nil x)
        rw [copy_get_of_from_clean ig n tl _ hclean]
        rw [Headers.get_set, if_pos hm, hv]
      | cons y ys =>
        rw [hft] at h
        rw [List.getLast?_cons_cons] at h
        rw [← hft] at h
        exact ih _ h

/-- Headers-level wrapper of `copy_get_last`. -/
theorem copy_get_last_h (ig : List String) (n v : String) (f dst : Headers)
    (hnig : n.lowerAscii ∉ ig)
    (hlast : ((f.entries.filter (fun e => e.1.lowerAscii == n.lowerAscii)).getLast?).map
      Prod.snd = some v) :
    (copy_headers f dst ig).get n = some v :=
  copy_get_last ig n v hnig f.entries dst hlast

/-- No rewrite happens when the looked-up `Location` is empty or starts
with `http`. -/
theorem fixLocation_id (scheme host : String) (f : Headers)
    (hc : ¬(((f.get "location").getD "") ≠ "" ∧
      ¬(((f.get "location").getD "").startsWithAscii "http" = true))) :
    fixLocation scheme host f = f := by
  unfold fixLocation fixLocationWith
  rw [if_neg hc]

/-- The rewrite replaces every `Location` entry when the looked-up
value is nonempty and does not start with `http`. -/
theorem fixLocation_set (scheme host : String) (f : Headers)
    (hc : ((f.get "location").getD "") ≠ "" ∧
      ¬(((f.get "location").getD "").startsWithAscii "http" = true)) :
    fixLocation scheme host f =
      f.set "location" (absLocation scheme host ((f.get "location").getD "")) := by
  unfold fixLocation fixLocationWith
  rw [if_pos hc]

/-- After `headers[k] = v`, the entries matching `k`'s name are exactly
`[(k, v)]`. -/
theorem filter_match_set (h : Headers) (k v n : String)
    (hk : k.lowerAscii = n.lowerAscii) :
    (h.set k v).entries.filter (fun e => e.1.lowerAscii == n.lowerAscii) = [(k, v)] := by
  unfold Headers.set
  rw [List.filter_append]
  have h1 : (h.entries.filter (fun e => e.1.lowerAscii != k.lowerAscii)).filter
      (fun e => e.1.lowerAscii == n.lowerAscii) = [] := by
    rw [List.filter_eq_nil]
    intro e he hmatch
    rw [List.mem_filter] at he
    have h2 : e.1.lowerAscii ≠ k.lowerAscii := by simpa using he.2
    have h3 : e.1.lowerAscii = n.lowerAscii := by simpa using hmatch
    exact h2 (h3.trans hk.symm)
  have h2 : ([(k, v)].filter (fun e => e.1.lowerAscii == n.lowerAscii)) = [(k, v)] := by
    simp [hk]
  rw [h1, h2]
  rfl

/-- For a name other than `location`, the `Location` correction does
not disturb the matching entries. -/
theorem fixLocation_filter_ne (scheme host : String) (f : Headers) (n : String)
    (hn : n.lowerAscii ≠ ("location" : String).lowerAscii) :
    (fixLocation scheme host f).entries.filter
        (fun e => e.1.lowerAscii == n.lowerAscii) =
      f.entries.filter (fun e => e.1.lowerAscii == n.lowerAscii) := by
  unfold fixLocation fixLocationWith
  split
  · unfold Headers.set
    rw [List.filter_append]
    have h1 : ([(("location" : String),
        absLocation scheme host ((f.get "location").getD ""))].filter
        (fun e => e.1.lowerAscii == n.lowerAscii)) = [] := by
      simp only [List.filter_cons, List.filter_nil]
      rw [if_neg]
      intro hc
      have : ("location" : String).lowerAscii = n.lowerAscii := by simpa using hc
      exact hn this.symm
    rw [h1, List.append_nil]
    rw [List.filter_filter]
    apply List.filter_congr
    intro e _
    by_cases hm : e.1.lowerAscii = n.lowerAscii
    · have h4 : e.1.lowerAscii ≠ ("location" : String).lowerAscii :=
        fun hc => hn (hm.symm.trans hc)
      simp [hm, h4, hn]
    · simp [hm]
  · rfl

/-- The shaped response's status always copies the upstream status
(every branch of the shaper). -/
theorem afterFetch_status (rangemethod : Bool) (scheme host : String)
    (res0 : Response) (fetched : FetchResult) :
    (afterFetchResponse rangemethod scheme host res0 fetched).status =
      fetched.status_code := by
  unfold afterFetchResponse
  split
  · rfl
  · split
    · rfl
    · split
      · rfl
      · split
        · split
          · rfl
          · rfl
        · rfl

/-- The shaped response's body always appends the upstream content
unchanged (every branch of the shaper). -/
theorem afterFetch_body (rangemethod : Bool) (scheme host : String)
    (res0 : Response) (fetched : FetchResult) :
    (afterFetchResponse rangemethod scheme host res0 fetched).body =
      res0.body ++ fetched.content := by
  unfold afterFetchResponse
  split
  · rfl
  · split
    · rfl
    · split
      · rfl
      · split
        · split
          · rfl
          · rfl
        · rfl

/-- Every branch of the shaper ends in the same `copy_headers` of the
(location-corrected) fetched headers, so the last-writer-wins value of
any non-ignored name is the final one, whatever annotations were set
before. -/
theorem afterFetch_get_copy_last (rangemethod : Bool) (scheme host : String)
    (res0 : Response) (fetched : FetchResult) (n v : String)
    (hnig : n.lowerAscii ∉ resIgnoreHeaders fetched)
    (hlast : (((fheadersOf scheme host fetched).entries.filter
        (fun e => e.1.lowerAscii == n.lowerAscii)).getLast?).map Prod.snd = some v) :
    (afterFetchResponse rangemethod scheme host res0 fetched).headers.get n = some v := by
  unfold afterFetchResponse
  split
  · rw [send_response_headers]
    exact copy_get_last_h _ _ _ _ _ hnig hlast
  · split
    · rw [send_response_headers]
      exact copy_get_last_h _ _ _ _ _ hnig hlast
    · split
      · rw [send_response_headers]
        exact copy_get_last_h _ _ _ _ _ hnig hlast
      · split
        · split
          · rw [send_response_headers]
            exact copy_get_last_h _ _ _ _ _ hnig hlast
          · rw [send_response_headers]
            exact copy_get_last_h _ _ _ _ _ hnig hlast
        · rw [send_response_headers]
          exact copy_get_last_h _ _ _ _ _ hnig hlast

/-- Pipeline-level form: any completed fetch, any name not stripped and
not the version header (stamped after the copy by the guard's
`finally`): the final response's value for that name is the given
last-writer value of the corrected fetched headers. -/
theorem processRequest_get_final (m : Method) (ts : String)
    (oracle : OutgoingFetch → FetchOutcome) (req : Request)
    (url scheme host : String) (rd : Option (Int × Int)) (fetched : FetchResult)
    (n v : String)
    (hx : extract_url req.path_qs req.host = .ok (url, scheme, host))
    (hlen : payloadLen m req < URLFETCH_REQ_MAXBYTES)
    (hr : rangeAdmission m.isRange req.rangeParsed = .accept rd)
    (hs : oracle (mkOutgoingFetch m req url) = .success fetched)
    (hver : n.lowerAscii ≠ H_LAEPROXY_VER.lowerAscii)
    (hnig : n.lowerAscii ∉ resIgnoreHeaders fetched)
    (hlast : (((fheadersOf scheme host fetched).entries.filter
        (fun e => e.1.lowerAscii == n.lowerAscii)).getLast?).map Prod.snd = some v) :
    (outcomeHeaders (processRequest m ts oracle req).1).get n = some v := by
  have hpr := processRequest_fetch m ts oracle req url scheme host rd hx hlen hr
  have h1 : (processRequest m ts oracle req).1 =
      catch_deadline_exceeded (fetchStage m ts oracle req scheme host url) := by
    rw [hpr]
  rw [fetchStage_success m ts oracle req scheme host url fetched hs,
    catch_normal] at h1
  rw [h1]
  simp only [outcomeHeaders, Response.setHeader_headers]
  rw [Headers.get_set, if_neg (fun hc => hver hc.symm)]
  exact afterFetch_get_copy_last m.isRange scheme host _ fetched n v hnig hlast

/-- Specialization to names other than `location` (which the
`Location` correction could rewrite): the final value is the last
matching entry of the *raw* origin headers. -/
theorem processRequest_origin_wins (m : Method) (ts : String)
    (oracle : OutgoingFetch → FetchOutcome) (req : Request)
    (url scheme host : String) (rd : Option (Int × Int)) (fetched : FetchResult)
    (n v : String)
    (hx : extract_url req.path_qs req.host = .ok (url, scheme, host))
    (hlen : payloadLen m req < URLFETCH_REQ_MAXBYTES)
    (hr : rangeAdmission m.isRange req.rangeParsed = .accept rd)
    (hs : oracle (mkOutgoingFetch m req url) = .success fetched)
    (hlast : ((fetched.headers.entries.filter
        (fun e => e.1.lowerAscii == n.lowerAscii)).getLast?).map Prod.snd = some v)
    (hnig : n.lowerAscii ∉ resIgnoreHeaders fetched)
    (hnloc : n.lowerAscii ≠ ("location" : String).lowerAscii)
    (hver : n.lowerAscii ≠ H_LAEPROXY_VER.lowerAscii) :
    (outcomeHeaders (processRequest m ts oracle req).1).get n = some v := by
  apply processRequest_get_final m ts oracle req url scheme host rd fetched n v
    hx hlen hr hs hver hnig
  have hfix : (fheadersOf scheme host fetched).entries.filter
      (fun e => e.1.lowerAscii == n.lowerAscii) =
      fetched.headers.entries.filter (fun e => e.1.lowerAscii == n.lowerAscii) :=
    fixLocation_filter_ne scheme host fetched.headers n hnloc
  rw [hfix]
  exact hlast

/-! ## C6: annotation ordering -/

/-- Concrete GET whose origin response carries its own
`X-laeproxy-result` header. -/
def c6CounterReq : Request :=
  { path_qs := "/http/origin.example/f", host := "laeproxy.appspot.com",
    headers := ⟨[]⟩, body := "", rangeParsed := some [(0, some 100)] }

def c6CounterFetched : FetchResult :=
  { status_code := 200,
    headers := ⟨[("X-laeproxy-result", "spoofed by origin")]⟩,
    content := "b", content_was_truncated := false }

def c6CounterOracle : OutgoingFetch → FetchOutcome := fun _ => .success c6CounterFetched

/-- **C6 counterexample.**  The annotations are written *before*
`_send_response` copies the origin headers (laeproxy.py:189/210/214
precede line 112), so an origin header named `X-laeproxy-result`
overwrites the proxy's annotation: the final response carries the
origin's value, not `RETRIEVED_FROM_NET`. -/
theorem c6_counterexample :
    outcomeIsNormal (processRequest .get "t6" c6CounterOracle c6CounterReq).1 = true ∧
    (outcomeHeaders (processRequest .get "t6" c6CounterOracle c6CounterReq).1).get
      H_LAEPROXY_RESULT = some "spoofed by origin" ∧
    "spoofed by origin" ≠ RETRIEVED_FROM_NET "t6" := by
  refine ⟨?_, ?_, ?_⟩ <;> decide

/-- **C6 amended**: the annotation headers are applied *before* the
forwarded origin headers are copied (laeproxy.py sets them at lines
189/210/214/236/254 and `_send_response` copies the origin headers
last), so when the origin response carries a header — outside the
response strip set — with the same name as an annotation header, the
final response carries the *origin's* value, not the proxy's.  First
conjunct: for *any* method, *any* origin response (any status,
truncated or not, any list of origin headers), and *any* header name
`n` outside the strip set, other than `location` (which the relative-
`Location` correction may rewrite) and other than the version header
(stamped after the copy by the guard's `finally`), the final value of
`n` is the value of the last matching origin entry.  Second conjunct:
every one of the five pre-copy annotation names satisfies those
name-side conditions, so each can be overridden this way. -/
theorem c6_amended :
    (∀ (m : Method) (ts : String) (oracle : OutgoingFetch → FetchOutcome)
       (req : Request) (url scheme host : String) (rd : Option (Int × Int))
       (fetched : FetchResult) (n v : String),
      extract_url req.path_qs req.host = .ok (url, scheme, host) →
      payloadLen m req < URLFETCH_REQ_MAXBYTES →
      rangeAdmission m.isRange req.rangeParsed = .accept rd →
      oracle (mkOutgoingFetch m req url) = .success fetched →
      ((fetched.headers.entries.filter
          (fun e => e.1.lowerAscii == n.lowerAscii)).getLast?).map Prod.snd = some v →
      n.lowerAscii ∉ resIgnoreHeaders fetched →
      n.lowerAscii ≠ ("location" : String).lowerAscii →
      n.lowerAscii ≠ H_LAEPROXY_VER.lowerAscii →
      (outcomeHeaders (processRequest m ts oracle req).1).get n = some v) ∧
    (∀ n, n ∈ [H_LAEPROXY_RESULT, H_UPSTREAM_STATUS_CODE, H_UPSTREAM_SERVER,
        H_TRUNCATED, H_UPSTREAM_CONTENT_RANGE] →
      n.lowerAscii ∉ HOPBYHOP ∧ n.lowerAscii ≠ ("location" : String).lowerAscii ∧
      n.lowerAscii ≠ H_LAEPROXY_VER.lowerAscii) := by
  constructor
  · intro m ts oracle req url scheme host rd fetched n v hx hlen hr hs hlast hnig
      hnloc hver
    exact processRequest_origin_wins m ts oracle req url scheme host rd fetched n v
      hx hlen hr hs hlast hnig hnloc hver
  · intro n hn
    fin_cases hn <;> exact ⟨by decide, by decide, by decide⟩

/-- Multi-header origin response on a (truncated!) POST exchange, with
two case-varied spoofed copies of the upstream-server annotation and a
spoofed result annotation. -/
def c6WitnessReq : Request :=
  { path_qs := "/http/origin.example/p", host := "laeproxy.appspot.com",
    headers := ⟨[]⟩, body := "", rangeParsed := none }

def c6WitnessFetched : FetchResult :=
  { status_code := 206,
    headers := ⟨[("X-laeproxy-upstream-server", "fake1"), ("Server", "real"),
      ("X-LAEPROXY-UPSTREAM-SERVER", "fake2"), ("X-laeproxy-result", "spoof")]⟩,
    content := "b", content_was_truncated := true }

def c6WitnessOracle : OutgoingFetch → FetchOutcome := fun _ => .success c6WitnessFetched

/-- Witness for the amended C6: on a truncated 206 POST with a
multi-header origin response, the last case-varied origin copy of the
upstream-server annotation wins, and so does the spoofed result
annotation. -/
theorem c6_amended_witness :
    (outcomeHeaders (processRequest .post "t6w" c6WitnessOracle c6WitnessReq).1).get
      H_UPSTREAM_SERVER = some "fake2" ∧
    (outcomeHeaders (processRequest .post "t6w" c6WitnessOracle c6WitnessReq).1).get
      H_LAEPROXY_RESULT = some "spoof" :=
  ⟨c6_amended.1 .post "t6w" c6WitnessOracle c6WitnessReq "http://origin.example/p"
      "http" "origin.example" none c6WitnessFetched H_UPSTREAM_SERVER "fake2"
      rfl (by decide) rfl rfl (by decide) (by decide) (by decide) (by decide),
   c6_amended.1 .post "t6w" c6WitnessOracle c6WitnessReq "http://origin.example/p"
      "http" "origin.example" none c6WitnessFetched H_LAEPROXY_RESULT "spoof"
      rfl (by decide) rfl rfl (by decide) (by decide) (by decide) (by decide)⟩

/-! ## C7: redirect handling -/

/-- Concrete GET whose fetch returns a 302 with a *relative*
`Location`. -/
def c7CounterReq : Request :=
  { path_qs := "/http/origin.example/f", host := "laeproxy.appspot.com",
    headers := ⟨[]⟩, body := "", rangeParsed := some [(0, some 100)] }

def c7CounterFetched : FetchResult :=
  { status_code := 302,
    headers := ⟨[("Location", "/foo")]⟩,
    content := "redir", content_was_truncated := false }

def c7CounterOracle : OutgoingFetch → FetchOutcome := fun _ => .success c7CounterFetched

/-- **C7 counterexample.**  The redirect is not followed and the 302 is
surfaced, but the `Location` value is *not* forwarded unchanged: the
relative `/foo` is rewritten to `http://origin.example/foo`
(laeproxy.py:222-228). -/
theorem c7_counterexample :
    outcomeStatus (processRequest .get "t7" c7CounterOracle c7CounterReq).1 = 302 ∧
    (processRequest .get "t7" c7CounterOracle c7CounterReq).2 =
      some (mkOutgoingFetch .get c7CounterReq "http://origin.example/f") ∧
    (mkOutgoingFetch .get c7CounterReq "http://origin.example/f").follow_redirects
      = false ∧
    (outcomeHeaders (processRequest .get "t7" c7CounterOracle c7CounterReq).1).get
      "location" = some "http://origin.example/foo" ∧
    some "http://origin.example/foo" ≠ some "/foo" := by
  refine ⟨?_, ?_, ?_, ?_, ?_⟩ <;> decide

/-- The `Location` rewrite on a response whose only header is
`Location: l`. -/
theorem fixLocation_singleton (scheme host l : String) :
    fixLocation scheme host ⟨[("Location", l)]⟩ =
      if l ≠ "" ∧ ¬(l.startsWithAscii "http" = true) then
        ⟨[("location", absLocation scheme host l)]⟩
      else ⟨[("Location", l)]⟩ := by
  have hX : ((⟨[("Location", l)]⟩ : Headers).get "location").getD "" = l := rfl
  unfold fixLocation fixLocationWith
  rw [hX]
  by_cases hc : l ≠ "" ∧ ¬(l.startsWithAscii "http" = true)
  · rw [if_pos hc, if_pos hc]
    rfl
  · rw [if_neg hc, if_neg hc]

/-- **C7 amended**: `fetch` is always invoked with
`follow_redirects=False` (first conjunct, any request that reaches the
fetch).  Second conjunct: *every* completed fetch — any method, any
status (hence every redirect), any origin header list, truncated or
not — is surfaced with its status and body unchanged.  Third conjunct:
every origin response header outside the response strip set, other
than `Location` and other than the version header the guard stamps
last, is forwarded with its (last) value unchanged.  Fourth conjunct:
the `Location` header itself is forwarded unchanged when its value
starts with `http`, and a nonempty value not starting with `http` is
rewritten to `scheme://host` + the slash-prefixed value
(laeproxy.py:222-228). -/
theorem c7_amended :
    (∀ (m : Method) (ts : String) (oracle : OutgoingFetch → FetchOutcome)
       (req : Request) (f : OutgoingFetch),
      (processRequest m ts oracle req).2 = some f → f.follow_redirects = false) ∧
    (∀ (m : Method) (ts : String) (oracle : OutgoingFetch → FetchOutcome)
       (req : Request) (url scheme host : String) (rd : Option (Int × Int))
       (fetched : FetchResult),
      extract_url req.path_qs req.host = .ok (url, scheme, host) →
      payloadLen m req < URLFETCH_REQ_MAXBYTES →
      rangeAdmission m.isRange req.rangeParsed = .accept rd →
      oracle (mkOutgoingFetch m req url) = .success fetched →
      outcomeStatus (processRequest m ts oracle req).1 = fetched.status_code ∧
      outcomeBody (processRequest m ts oracle req).1 = fetched.content) ∧
    (∀ (m : Method) (ts : String) (oracle : OutgoingFetch → FetchOutcome)
       (req : Request) (url scheme host : String) (rd : Option (Int × Int))
       (fetched : FetchResult) (n v : String),
      extract_url req.path_qs req.host = .ok (url, scheme, host) →
      payloadLen m req < URLFETCH_REQ_MAXBYTES →
      rangeAdmission m.isRange req.rangeParsed = .accept rd →
      oracle (mkOutgoingFetch m req url) = .success fetched →
      ((fetched.headers.entries.filter
          (fun e => e.1.lowerAscii == n.lowerAscii)).getLast?).map Prod.snd = some v →
      n.lowerAscii ∉ resIgnoreHeaders fetched →
      n.lowerAscii ≠ ("location" : String).lowerAscii →
      n.lowerAscii ≠ H_LAEPROXY_VER.lowerAscii →
      (outcomeHeaders (processRequest m ts oracle req).1).get n = some v) ∧
    (∀ (m : Method) (ts : String) (oracle : OutgoingFetch → FetchOutcome)
       (req : Request) (url scheme host : String) (rd : Option (Int × Int))
       (fetched : FetchResult),
      extract_url req.path_qs req.host = .ok (url, scheme, host) →
      payloadLen m req < URLFETCH_REQ_MAXBYTES →
      rangeAdmission m.isRange req.rangeParsed = .accept rd →
      oracle (mkOutgoingFetch m req url) = .success fetched →
      ("location" : String).lowerAscii ∉ resIgnoreHeaders fetched →
      ((((fetched.headers.get "location").getD "").startsWithAscii "http" = true →
        ∀ v, ((fetched.headers.entries.filter (fun e =>
            e.1.lowerAscii == ("location" : String).lowerAscii)).getLast?).map
          Prod.snd = some v →
        (outcomeHeaders (processRequest m ts oracle req).1).get "location" = some v) ∧
       (((fetched.headers.get "location").getD "") ≠ "" →
        ((fetched.headers.get "location").getD "").startsWithAscii "http" = false →
        (outcomeHeaders (processRequest m ts oracle req).1).get "location" =
          some (absLocation scheme host ((fetched.headers.get "location").getD ""))))) := by
  refine ⟨?_, ?_, ?_, ?_⟩
  · intro m ts oracle req f h
    have h2 : (handler m ts oracle req).2 = some f := h
    revert h2
    unfold handler
    split
    · intro h2; exact absurd h2 (by simp)
    · split
      · intro h2; exact absurd h2 (by simp)
      · split
        · intro h2; exact absurd h2 (by simp)
        · intro h2
          injection h2 with h3
          subst h3
          rfl
  · intro m ts oracle req url scheme host rd fetched hx hlen hr hs
    have hpr := processRequest_fetch m ts oracle req url scheme host rd hx hlen hr
    have h1 : (processRequest m ts oracle req).1 =
        catch_deadline_exceeded (fetchStage m ts oracle req scheme host url) := by
      rw [hpr]
    rw [fetchStage_success m ts oracle req scheme host url fetched hs,
      catch_normal] at h1
    constructor
    · rw [h1]
      simp only [outcomeStatus, Response.setHeader_status]
      exact afterFetch_status m.isRange scheme host _ fetched
    · rw [h1]
      simp only [outcomeBody, Response.setHeader_body]
      rw [afterFetch_body m.isRange scheme host _ fetched]
      simp only [Response.setHeader_body, Response.initial_body]
      exact empty_append_str fetched.content
  · intro m ts oracle req url scheme host rd fetched n v hx hlen hr hs hlast hnig
      hnloc hver
    exact processRequest_origin_wins m ts oracle req url scheme host rd fetched n v
      hx hlen hr hs hlast hnig hnloc hver
  · intro m ts oracle req url scheme host rd fetched hx hlen hr hs hlocig
    constructor
    · intro hA v hlastloc
      apply processRequest_get_final m ts oracle req url scheme host rd fetched
        "location" v hx hlen hr hs (by decide) hlocig
      have hfix : fheadersOf scheme host fetched = fetched.headers :=
        fixLocation_id scheme host fetched.headers (fun hcond => hcond.2 hA)
      rw [hfix]
      exact hlastloc
    · intro hne hB
      apply processRequest_get_final m ts oracle req url scheme host rd fetched
        "location" _ hx hlen hr hs (by decide) hlocig
      have hfix : fheadersOf scheme host fetched =
          fetched.headers.set "location"
            (absLocation scheme host ((fetched.headers.get "location").getD "")) :=
        fixLocation_set scheme host fetched.headers
          ⟨hne, by rw [hB]; decide⟩
      rw [hfix, filter_match_set fetched.headers "location" _ "location" rfl]
      rfl

/-- A redirect exchange with several origin headers and a relative
`Location` for the C7 witness. -/
def c7WitnessFetched : FetchResult :=
  { status_code := 302,
    headers := ⟨[("Location", "/foo"), ("Server", "mock7"), ("Set-Cookie", "a=1")]⟩,
    content := "redir", content_was_truncated := false }

def c7WitnessOracle : OutgoingFetch → FetchOutcome := fun _ => .success c7WitnessFetched

/-- Witness for the amended C7: a GET answered 302 with three origin
headers; status and body surface unchanged, `Set-Cookie` is forwarded
unchanged, and the relative `Location` is absolutized. -/
theorem c7_amended_witness :
    (mkOutgoingFetch .get c7CounterReq "http://origin.example/f").follow_redirects
      = false ∧
    outcomeStatus (processRequest .get "t7w" c7WitnessOracle c7CounterReq).1 = 302 ∧
    outcomeBody (processRequest .get "t7w" c7WitnessOracle c7CounterReq).1 = "redir" ∧
    (outcomeHeaders (processRequest .get "t7w" c7WitnessOracle c7CounterReq).1).get
      "Set-Cookie" = some "a=1" ∧
    (outcomeHeaders (processRequest .get "t7w" c7WitnessOracle c7CounterReq).1).get
      "location" = some (absLocation "http" "origin.example" "/foo") := by
  refine ⟨?_, ?_, ?_, ?_, ?_⟩
  · exact c7_amended.1 .get "t7w" c7WitnessOracle c7CounterReq _ (by decide)
  · exact (c7_amended.2.1 .get "t7w" c7WitnessOracle c7CounterReq
      "http://origin.example/f" "http" "origin.example" (some (0, 99))
      c7WitnessFetched rfl (by decide) rfl rfl).1
  · exact (c7_amended.2.1 .get "t7w" c7WitnessOracle c7CounterReq
      "http://origin.example/f" "http" "origin.example" (some (0, 99))
      c7WitnessFetched rfl (by decide) rfl rfl).2
  · exact c7_amended.2.2.1 .get "t7w" c7WitnessOracle c7CounterReq
      "http://origin.example/f" "http" "origin.example" (some (0, 99))
      c7WitnessFetched "Set-Cookie" "a=1" rfl (by decide) rfl rfl
      (by decide) (by decide) (by decide) (by decide)
  · exact (c7_amended.2.2.2 .get "t7w" c7WitnessOracle c7CounterReq
      "http://origin.example/f" "http" "origin.example" (some (0, 99))
      c7WitnessFetched rfl (by decide) rfl rfl (by decide)).2
      (by decide) (by decide)

/-! ## C5: hop-by-hop hygiene -/

/-- **C5** (confirmed).  (a) Every header forwarded to `fetch` has a
(lowercased) name outside the RFC 2616 hop-by-hop set, outside the
names listed in the incoming request's `Connection` header, and
distinct from `host`.  (b) The pipeline reports exactly the sanitized
fetch call.  (c) On a completed fetch, every header of the final
response is outside the hop-by-hop set, and any header whose name the
*origin's* `Connection` header listed can only be one of the proxy's
own `x-laeproxy-*` annotations — no such origin header is forwarded. -/
theorem c5_hopbyhop (m : Method) (ts : String)
    (oracle : OutgoingFetch → FetchOutcome) (req : Request)
    (url scheme host : String) (rd : Option (Int × Int)) (fetched : FetchResult)
    (hx : extract_url req.path_qs req.host = .ok (url, scheme, host))
    (hlen : payloadLen m req < URLFETCH_REQ_MAXBYTES)
    (hr : rangeAdmission m.isRange req.rangeParsed = .accept rd) :
    (∀ a b, (a, b) ∈ (mkOutgoingFetch m req url).headers.entries →
      a.lowerAscii ∉ HOPBYHOP ∧ a.lowerAscii ∉ connNames req.headers ∧
      a.lowerAscii ≠ "host") ∧
    ((processRequest m ts oracle req).2 = some (mkOutgoingFetch m req url)) ∧
    (oracle (mkOutgoingFetch m req url) = .success fetched →
      ∀ a b, (a, b) ∈ (outcomeHeaders (processRequest m ts oracle req).1).entries →
        a.lowerAscii ∉ HOPBYHOP ∧
        (a.lowerAscii ∈ connNames fetched.headers →
          a.lowerAscii.startsWithAscii "x-laeproxy" = true)) := by
  have hpr := processRequest_fetch m ts oracle req url scheme host rd hx hlen hr
  refine ⟨?_, by rw [hpr], ?_⟩
  · intro a b hab
    have hmem := @mem_stripHeaders req.headers (reqIgnoreHeaders req) a b hab
    have hnot := hmem.2
    unfold reqIgnoreHeaders at hnot
    refine ⟨fun hH => hnot ?_, fun hC => hnot ?_, fun hh => hnot ?_⟩
    · exact List.mem_append_left _ (List.mem_append_right _ hH)
    · exact List.mem_append_left _ (List.mem_append_left _ hC)
    · rw [hh]
      exact List.mem_append_right _ (by simp)
  · intro hs a b hab
    have h1 : (processRequest m ts oracle req).1 =
        catch_deadline_exceeded (fetchStage m ts oracle req scheme host url) := by
      rw [hpr]
    rw [fetchStage_success m ts oracle req scheme host url fetched hs,
      catch_normal] at h1
    rw [h1] at hab
    simp only [outcomeHeaders, Response.setHeader_headers] at hab
    rw [Headers.mem_set] at hab
    rcases hab with ⟨hmem, _⟩ | ⟨ha, _⟩
    · refine afterFetch_forall
        (fun a b => a.lowerAscii ∉ HOPBYHOP ∧
          (a.lowerAscii ∈ connNames fetched.headers →
            a.lowerAscii.startsWithAscii "x-laeproxy" = true))
        m.isRange scheme host _ fetched ?_ ?_ ?_ ?_ a b hmem
      · intro a2 b2 hab2
        rcases mem_annotatedBase hab2 with hbase | ha2 | ha2
        · simp only [Response.setHeader_headers, Response.initial_headers] at hbase
          rw [Headers.mem_set] at hbase
          rcases hbase with ⟨hnil, _⟩ | ⟨ha2, _⟩
          · exact absurd hnil (List.not_mem_nil _)
          · subst ha2
            exact ⟨by decide, fun _ => by decide⟩
        · subst ha2
          exact ⟨by decide, fun _ => by decide⟩
        · subst ha2
          exact ⟨by decide, fun _ => by decide⟩
      · intro v
        exact ⟨by decide, fun _ => by decide⟩
      · intro v
        exact ⟨by decide, fun _ => by decide⟩
      · intro a2 b2 _ hnig
        unfold resIgnoreHeaders at hnig
        refine ⟨fun hH => hnig (List.mem_append_right _ hH), fun hC => ?_⟩
        exact absurd (List.mem_append_left _ hC) hnig
    · subst ha
      exact ⟨by decide, fun _ => by decide⟩

/-- Concrete request and origin response exercising both strip
directions. -/
def c5WitnessReq : Request :=
  { path_qs := "/http/origin.example/h", host := "laeproxy.appspot.com",
    headers := ⟨[("Connection", "X-Custom"), ("X-Custom", "secret"),
      ("Range", "bytes=0-99"), ("Host", "laeproxy.appspot.com"), ("TE", "x")]⟩,
    body := "", rangeParsed := some [(0, some 100)] }

def c5WitnessFetched : FetchResult :=
  { status_code := 200, headers := ⟨[("Server", "mock5")]⟩,
    content := "ok", content_was_truncated := false }

def c5WitnessOracle : OutgoingFetch → FetchOutcome := fun _ => .success c5WitnessFetched

/-- Witness for C5 at concrete entries of the forwarded request and of
the final response. -/
theorem c5_hopbyhop_witness :
    (("Range" : String).lowerAscii ∉ HOPBYHOP ∧
      ("Range" : String).lowerAscii ∉ connNames c5WitnessReq.headers ∧
      ("Range" : String).lowerAscii ≠ "host") ∧
    (("Server" : String).lowerAscii ∉ HOPBYHOP ∧
      (("Server" : String).lowerAscii ∈ connNames c5WitnessFetched.headers →
        ("Server" : String).lowerAscii.startsWithAscii "x-laeproxy" = true)) := by
  have h := c5_hopbyhop .get "t5" c5WitnessOracle c5WitnessReq
    "http://origin.example/h" "http" "origin.example" (some (0, 99)) c5WitnessFetched
    rfl (by decide) rfl
  exact ⟨h.1 "Range" "bytes=0-99" (by decide),
    h.2.2 rfl "Server" "mock5" (by decide)⟩

end Laeproxy
